import Mathlib

/-!
# Notification dispatch of komari (`utils/messageSender/sender.go`)

A shallow embedding of the dispatch layer, the template renderer, the provider
selection and the bootstrap of default configurations, and of `item.Parse`
(`utils/item/item.go`), with the properties of them that were checked against
the code.

Modelling conventions.

* Go strings are Lean `String`s (sequences of Unicode code points, i.e. valid
  UTF-8 text).
* A backend is a record of its methods in state-passing style: a call takes the
  backend's internal state and returns the error result together with the next
  state. Backend calls are total (a call that hangs or panics is not modelled).
* The world of one goroutine is explicit: the provider holder, the backend
  state, what `config.Get()` returns, the trace of backend invocations and the
  audit log. Other goroutines do not interfere.
* A Go `error` result is `Option GoError` (`none` is `nil`).
* The iteration order of a Go map is an argument of the function that ranges
  over the map.
* The goroutine of `Initialize` is the function `bootstrap` on the storage; the
  synchronous part of `Initialize` reads the storage as it finds it.
-/

namespace Komari

/-! ## Data model -/

/-- Go `error` value. `text` is what `err.Error()` returns; `dyn` stands for the
rest of the value (its dynamic type and content), which the code never looks at. -/
structure GoError where
  text : String
  dyn : Nat
deriving DecidableEq, Repr

/-- The method `err.Error()`. -/
def GoError.Error (e : GoError) : String := e.text

/-- The call `fmt.Errorf(s)` with a format string without verbs. -/
def fmt.Errorf (s : String) : GoError := ⟨s, 0⟩

/-- Modelled from the Go standard library: a `time.Time` value, represented by
the string `Format(time.RFC3339)` returns for it, the only observation the code
makes of a timestamp. -/
structure Time where
  rfc3339 : String
deriving DecidableEq, Repr

/-- The call `t.Format(time.RFC3339)`. -/
def Time.FormatRFC3339 (t : Time) : String := t.rfc3339

/-- Modelled from the spec: one originating client of an event (`models`
package, not part of the source at hand): a display name and a unique
identifier. -/
structure Client where
  Name : String
  UUID : String
deriving DecidableEq, Repr

/-- Modelled from the spec: `models.EventMessage` (declared outside the source at
hand): event name, free-text message, emoji, timestamp and the ordered list of
originating clients. -/
structure EventMessage where
  Event : String
  Message : String
  Emoji : String
  Time : Time
  Clients : List Client
deriving DecidableEq, Repr

/-- Modelled from the spec: the fields of the global configuration that the
dispatch core reads (`config` package, declared outside the source at hand). -/
structure Config where
  NotificationMethod : String
  NotificationEnabled : Bool
  NotificationTemplate : String
deriving DecidableEq, Repr

/-- Modelled from the spec: the provider contract `factory.IMessageSender`
(declared outside the source at hand). `SendTextMessage` is the base
capability; `SendEvent` is present exactly when the backend also implements
`factory.IEventMessageSender`. -/
structure IMessageSender (σ : Type) where
  SendTextMessage : σ → String → String → Option GoError × σ
  SendEvent : Option (σ → EventMessage → Option GoError × σ)

/-- One backend invocation, as recorded in the trace. -/
inductive Call where
  | sendText (message title : String)
  | sendEvent (event : EventMessage)
deriving DecidableEq, Repr

/-- One entry of the audit log: the four arguments of `auditlog.Log`. -/
structure AuditEntry where
  actor : String
  target : String
  message : String
  severity : String
deriving DecidableEq, Repr

/-- Everything the dispatch operations read or change. -/
structure World (σ : Type) where
  currentProvider : Option (IMessageSender σ)
  providerState : σ
  configGet : Config × Option GoError
  calls : List Call
  audit : List AuditEntry

/-- A run-time panic of the Go program. -/
inductive GoPanic where
  | nilDereference
deriving DecidableEq, Repr

/-- What a dispatch operation yields: a panic, or the returned `error` and the
world it leaves. -/
abbrev Outcome (σ : Type) := Except GoPanic (Option GoError × World σ)

variable {σ : Type}

/-! ## Collaborators -/

/-- The function `CurrentProvider()`: reads the holder (the lock has no
sequential effect). -/
def CurrentProvider (w : World σ) : Option (IMessageSender σ) := w.currentProvider

/-- The call `auditlog.Log(actor, target, message, severity)`: appends one entry. -/
def auditlog.Log (actor target message severity : String) (w : World σ) : World σ :=
  { w with audit := w.audit ++ [⟨actor, target, message, severity⟩] }

/-- The call `p.SendTextMessage(message, title)` on the backend `p`: the backend
moves to its next state and the invocation is recorded. -/
def callSendText (p : IMessageSender σ) (message title : String) (w : World σ) :
    Option GoError × World σ :=
  let r := p.SendTextMessage w.providerState message title
  (r.1, { w with providerState := r.2, calls := w.calls ++ [Call.sendText message title] })

/-- The call `eventSender.SendEvent(event)` through the event capability `f`. -/
def callSendEvent (f : σ → EventMessage → Option GoError × σ) (event : EventMessage)
    (w : World σ) : Option GoError × World σ :=
  let r := f w.providerState event
  (r.1, { w with providerState := r.2, calls := w.calls ++ [Call.sendEvent event] })

/-! ## `SendTextMessage` -/

/-- The loop `for i := 0; i < 3; i++` of `SendTextMessage` and the code after it.
The first argument is the number of iterations left (`3 - i`), the second the
current value of the variable `err`. -/
def sendTextLoop (message title : String) :
    Nat → Option GoError → World σ → Outcome σ
  | 0, err, w =>
    match err with
    | none => .error .nilDereference
    | some e =>
      .ok (some e, auditlog.Log "" ""
        ("Failed to send message after 3 attempts: " ++ e.Error ++ "," ++ title) "error" w)
  | n + 1, _, w =>
    match CurrentProvider w with
    | none => .error .nilDereference
    | some p =>
      match callSendText p message title w with
      | (none, w1) => .ok (none, auditlog.Log "" "" ("Message sent: " ++ title) "info" w1)
      | (some e, w1) => sendTextLoop message title n (some e) w1

/-- The function `SendTextMessage(message, title)`. -/
def SendTextMessage (message title : String) (w : World σ) : Outcome σ :=
  match CurrentProvider w with
  | none => .ok (some (fmt.Errorf "message sender provider is not initialized"), w)
  | some _ =>
    match w.configGet with
    | (_, some e) => .ok (some e, w)
    | (cfg, none) =>
      if !cfg.NotificationEnabled then .ok (none, w)
      else sendTextLoop message title 3 none w

/-! ## Strings (`strings` package of the Go standard library) -/

/-- Modelled from the Go standard library: `unicode.IsSpace`, the white space
that `strings.TrimSpace` removes. -/
def isSpace (c : Char) : Bool :=
  let n := c.toNat
  (9 ≤ n && n ≤ 13) || n == 32 || n == 133 || n == 160 || n == 5760 ||
  (8192 ≤ n && n ≤ 8202) || n == 8232 || n == 8233 || n == 8239 || n == 8287 || n == 12288

/-- Modelled from the Go standard library: `strings.TrimSpace(s)`, the string
without its leading and trailing white space. -/
def TrimSpace (s : String) : String :=
  ⟨((s.data.dropWhile isSpace).reverse.dropWhile isSpace).reverse⟩

/-- Modelled from the Go standard library: `strings.Join(elems, sep)`. -/
def Join : List String → String → String
  | [], _ => ""
  | [a], _ => a
  | a :: b :: rest, sep => a ++ sep ++ Join (b :: rest) sep

/-- Left-to-right scan of `strings.ReplaceAll` for a non-empty `old`: at a
position where `old` starts, `new` is emitted and the scan resumes after the
match (`skip` counts the characters of the match still to pass over); any other
character is copied. -/
def replaceScan (old new : List Char) : Nat → List Char → List Char
  | _, [] => []
  | skip + 1, _ :: cs => replaceScan old new skip cs
  | 0, c :: cs =>
    if old.isPrefixOf (c :: cs) then new ++ replaceScan old new (old.length - 1) cs
    else c :: replaceScan old new 0 cs

/-- Modelled from the Go standard library: `strings.ReplaceAll(s, old, new)`,
all non-overlapping instances of `old` replaced by `new`; an empty `old`
matches before every character and at the end. -/
def ReplaceAll (s old new : String) : String :=
  if old.data.isEmpty then ⟨new.data ++ s.data.flatMap (fun c => c :: new.data)⟩
  else ⟨replaceScan old.data new.data 0 s.data⟩

/-! ## `parseTemplate` -/

/-- The keys of `replaceMap`, in the order the source lists them. -/
inductive Placeholder where
  | event
  | client
  | time
  | message
  | emoji
deriving DecidableEq, Repr

/-- The key strings of `replaceMap`. -/
def Placeholder.key : Placeholder → String
  | .event => "{{event}}"
  | .client => "{{client}}"
  | .time => "{{time}}"
  | .message => "{{message}}"
  | .emoji => "{{emoji}}"

/-- All keys of `replaceMap`. A `range` over the map visits each of them once, in
an order the Go runtime chooses: an iteration order is a permutation of this
list. -/
def Placeholder.all : List Placeholder := [.event, .client, .time, .message, .emoji]

/-- The first loop of `parseTemplate`: `clientNames`, one entry per client,
appended in the order of `event.Clients`. -/
def clientNames (event : EventMessage) : List String :=
  event.Clients.foldl
    (fun names c =>
      let name := c.Name
      let name := if TrimSpace name == "" then c.UUID else name
      names ++ [name])
    []

/-- The variable `joinedClients` of `parseTemplate`. -/
def joinedClients (event : EventMessage) : String := Join (clientNames event) ", "

/-- The map `replaceMap` of `parseTemplate`, as the lookup of a key's value. -/
def replaceMap (event : EventMessage) : Placeholder → String
  | .event => event.Event
  | .client => joinedClients event
  | .time => event.Time.FormatRFC3339
  | .message => event.Message
  | .emoji => event.Emoji

/-- The function `parseTemplate(messageTemplate, event)`, where `order` is the
order in which `range replaceMap` visits the keys during this call. -/
def parseTemplate (order : List Placeholder) (messageTemplate : String)
    (event : EventMessage) : String :=
  order.foldl (fun result placeholder =>
    ReplaceAll result placeholder.key (replaceMap event placeholder)) messageTemplate

/-! ## `SendEvent` -/

/-- The error text that `SendEvent` takes for a successful delivery. -/
def shortResponse : String := "short response: \x00\x00\x00\x1a\x00\x00\x00"

/-- The built-in template of `SendEvent`, used when none is configured. -/
def defaultTemplate : String :=
  "{{emoji}}{{emoji}}{{emoji}}\nEvent: {{event}}\nClients: {{client}}\nMessage: {{message}}\nTime: {{time}}"

/-- The first loop of `SendEvent` (the backend implements the event capability,
`eventSender` is `f`) and the code after it; arguments as in `sendTextLoop`. -/
def sendEventLoop (f : σ → EventMessage → Option GoError × σ) (event : EventMessage) :
    Nat → Option GoError → World σ → Outcome σ
  | 0, err, w =>
    match err with
    | none => .error .nilDereference
    | some e =>
      .ok (some e, auditlog.Log "" ""
        ("Failed to send event message after 3 attempts: " ++ e.Error ++ "," ++ event.Event)
        "error" w)
  | n + 1, _, w =>
    match callSendEvent f event w with
    | (none, w1) =>
      .ok (none, auditlog.Log "" "" ("Event message sent: " ++ event.Event) "info" w1)
    | (some e, w1) =>
      if e.Error == shortResponse then
        .ok (none, auditlog.Log "" "" ("Event message sent: " ++ event.Event) "info" w1)
      else sendEventLoop f event n (some e) w1

/-- The second loop of `SendEvent` (text fallback) and the code after it;
arguments as in `sendTextLoop`. -/
def sendEventTextLoop (messageTemplate : String) (event : EventMessage) :
    Nat → Option GoError → World σ → Outcome σ
  | 0, err, w =>
    match err with
    | none => .error .nilDereference
    | some e =>
      .ok (some e, auditlog.Log "" ""
        ("Failed to send event message after 3 attempts: " ++ e.Error ++ "," ++ event.Event)
        "error" w)
  | n + 1, _, w =>
    match CurrentProvider w with
    | none => .error .nilDereference
    | some p =>
      match callSendText p messageTemplate event.Event w with
      | (none, w1) =>
        .ok (none, auditlog.Log "" "" ("Event message sent: " ++ event.Event) "info" w1)
      | (some e, w1) =>
        if e.Error == shortResponse then
          .ok (none, auditlog.Log "" "" ("Event message sent: " ++ event.Event) "info" w1)
        else sendEventTextLoop messageTemplate event n (some e) w1

/-- The function `SendEvent(event)`; `order` is the iteration order of
`replaceMap` in the call of `parseTemplate`, if one is made. -/
def SendEvent (order : List Placeholder) (event : EventMessage) (w : World σ) : Outcome σ :=
  match CurrentProvider w with
  | none => .ok (some (fmt.Errorf "message sender provider is not initialized"), w)
  | some _ =>
    match w.configGet with
    | (_, some e) => .ok (some e, w)
    | (cfg, none) =>
      if !cfg.NotificationEnabled then .ok (none, w)
      else
        match (CurrentProvider w).bind (fun p => p.SendEvent) with
        | some eventSender => sendEventLoop eventSender event 3 none w
        | none =>
          let messageTemplate := cfg.NotificationTemplate
          let messageTemplate :=
            if messageTemplate == "" then defaultTemplate else messageTemplate
          let messageTemplate := parseTemplate order messageTemplate event
          sendEventTextLoop messageTemplate event 3 none w

/-! ## Vocabulary of the statements -/

/-- State of a backend after `n` successive calls of `step`, from state `s`. -/
def stateAfter (step : σ → Option GoError × σ) : Nat → σ → σ
  | 0, s => s
  | n + 1, s => stateAfter step n (step s).2

/-- Result of the call number `n + 1` in a row of successive calls of `step`. -/
def resultAt (step : σ → Option GoError × σ) (n : Nat) (s : σ) : Option GoError :=
  (step (stateAfter step n s)).1

/-- The backend call that one delivery attempt of `SendEvent` amounts to: the
send-event operation on the event when the backend has the event capability,
otherwise the send-text operation on the rendered text and the event's name. -/
def eventAttempt (p : IMessageSender σ) (order : List Placeholder) (cfg : Config)
    (event : EventMessage) : σ → Option GoError × σ :=
  match p.SendEvent with
  | some f => fun s => f s event
  | none => fun s =>
    p.SendTextMessage s
      (parseTemplate order
        (if cfg.NotificationTemplate = "" then defaultTemplate else cfg.NotificationTemplate)
        event)
      event.Event

/-- The benign error text in the words of the specification: `short response: `
followed by the bytes 00 00 00 1a 00 00 00. -/
def benignText : String :=
  "short response: " ++ String.mk ([0, 0, 0, 0x1a, 0, 0, 0].map Char.ofNat)

/-- An attempt of `SendEvent` counts as delivered when it returns no error or an
error whose text is exactly the benign text. -/
def delivered (r : Option GoError) : Prop :=
  r = none ∨ ∃ e, r = some e ∧ e.text = benignText

/-- A name is blank when it consists of white space only (the empty name
included). -/
def isBlank (name : String) : Bool := name.data.all isSpace

/-- The label of a client in the rendered client list, in the words of the
specification: the display name if it is not blank, else the identifier. -/
def clientLabel (c : Client) : String := if isBlank c.Name then c.UUID else c.Name

/-! ## Proof devices: the three retry loops as one -/

/-- One backend invocation `step`, recorded as `c`. -/
def invoke (step : σ → Option GoError × σ) (c : Call) (w : World σ) :
    Option GoError × World σ :=
  let r := step w.providerState
  (r.1, { w with providerState := r.2, calls := w.calls ++ [c] })

/-- The world after `k` invocations of `step`, each recorded as `c`. -/
def afterCalls (step : σ → Option GoError × σ) (c : Call) (k : Nat) (w : World σ) : World σ :=
  { w with providerState := stateAfter step k w.providerState,
           calls := w.calls ++ List.replicate k c }

/-- The common shape of the three loops: `benign` is the test on a non-nil error
that ends the loop with success, `okMsg` and `failMsg` are the audit messages. -/
def retry (step : σ → Option GoError × σ) (c : Call) (benign : GoError → Bool)
    (okMsg : String) (failMsg : GoError → String) :
    Nat → Option GoError → World σ → Outcome σ
  | 0, none, _ => .error .nilDereference
  | 0, some e, w => .ok (some e, auditlog.Log "" "" (failMsg e) "error" w)
  | n + 1, _, w =>
    match invoke step c w with
    | (none, w1) => .ok (none, auditlog.Log "" "" okMsg "info" w1)
    | (some e, w1) =>
      if benign e then .ok (none, auditlog.Log "" "" okMsg "info" w1)
      else retry step c benign okMsg failMsg n (some e) w1

/-- Whether `retry` stops at a result. -/
def accepted (benign : GoError → Bool) : Option GoError → Bool
  | none => true
  | some e => benign e

/-! ## Stub backends and worlds for the concrete instances -/

/-- A stub backend whose send-text always fails; its state counts the calls and
the error of a call carries the number of calls before it. -/
def alwaysFailing : IMessageSender Nat :=
  { SendTextMessage := fun s _ _ => (some ⟨"boom", s⟩, s + 1), SendEvent := none }

/-- A stub backend whose send-text fails twice and succeeds from the third call
on. -/
def failsTwice : IMessageSender Nat :=
  { SendTextMessage := fun s _ _ => (if s < 2 then some ⟨"boom", s⟩ else none, s + 1),
    SendEvent := none }

/-- A stub event-capable backend whose send-event always returns an error with
the short-response text. -/
def shortResponder : IMessageSender Nat :=
  { SendTextMessage := fun s _ _ => (some ⟨"text path", s⟩, s + 1),
    SendEvent := some (fun s _ => (some ⟨shortResponse, s⟩, s + 1)) }

/-- A stub event-capable backend whose send-event always fails. -/
def eventFailing : IMessageSender Nat :=
  { SendTextMessage := fun s _ _ => (none, s + 1),
    SendEvent := some (fun s _ => (some ⟨"boom", s⟩, s + 1)) }

/-- A world with the given provider holder and configuration result, a backend
in state 0, an empty trace and an empty audit log. -/
def stubWorld (holder : Option (IMessageSender Nat)) (cfg : Config × Option GoError) :
    World Nat :=
  { currentProvider := holder, providerState := 0, configGet := cfg, calls := [], audit := [] }

/-- A configuration with notifications enabled and no template. -/
def enabledConfig : Config := ⟨"stub", true, ""⟩

/-- A configuration with notifications disabled. -/
def disabledConfig : Config := ⟨"stub", false, ""⟩

/-- An event with a client whose name is a placeholder and a client whose name
is blank. -/
def sampleEvent : EventMessage :=
  ⟨"Offline", "hello", "X", ⟨"2024-01-01T00:00:00Z"⟩, [⟨"{{message}}", "u1"⟩, ⟨"  ", "u2"⟩]⟩

/-! ## Templates as sequences of text and placeholders -/

/-- A piece of a template: literal text, or one of the five placeholders. -/
inductive Segment where
  | lit (text : String)
  | tok (ph : Placeholder)
deriving DecidableEq, Repr

/-- The opening brace character. -/
def openBrace : Char := Char.ofNat 123

/-- The closing brace character. -/
def closeBrace : Char := Char.ofNat 125

/-- A string is brace-free when it has neither an opening nor a closing brace. -/
def braceFree (s : String) : Bool := s.data.all (fun c => c != openBrace && c != closeBrace)

/-- A piece as it stands in the template: a placeholder stands as its key. -/
def Segment.source : Segment → String
  | .lit text => text
  | .tok ph => ph.key

/-- A piece as it should be rendered for `event`: a placeholder becomes its value. -/
def Segment.value (event : EventMessage) : Segment → String
  | .lit text => text
  | .tok ph => replaceMap event ph

/-- Concatenation of strings, left to right. -/
def concat : List String → String
  | [] => ""
  | s :: rest => s ++ concat rest

/-- Proof device: the characters of a template in which the placeholders of
`done` have been replaced by their values and the others still stand as keys. -/
def partlyRendered (event : EventMessage) (done : List Placeholder) :
    List Segment → List Char
  | [] => []
  | .lit text :: rest => text.data ++ partlyRendered event done rest
  | .tok ph :: rest =>
    (if ph ∈ done then (replaceMap event ph).data else ph.key.data)
      ++ partlyRendered event done rest

/-- A template with all five placeholders, two of them adjacent and one
repeated. -/
def sampleSegments : List Segment :=
  [.tok .emoji, .tok .event, .lit " on ", .tok .client, .lit ": ", .tok .message,
    .lit " at ", .tok .time, .lit " ", .tok .emoji]

/-- An event whose values have no brace. -/
def plainEvent : EventMessage :=
  ⟨"Offline", "host is down", "!", ⟨"2024-01-01T00:00:00Z"⟩, [⟨"alpha", "u1"⟩, ⟨"", "u2"⟩]⟩

/-! ## `Initialize` and the bootstrap of default configurations -/

/-- Modelled from the spec: `models.MessageSenderProvider` (declared outside the
source at hand), a persisted configuration row: the provider name, which is the
key, and the serialized configuration. -/
structure MessageSenderProvider where
  Name : String
  Addition : String
deriving DecidableEq, Repr

/-- Modelled from the spec: a provider kind that `factory.GetAllMessageSenders()`
returns (registry outside the source at hand): the result of `GetName()` and the
two results of `json.Marshal(provider.GetConfiguration())`. -/
structure KnownSender where
  GetName : String
  marshal : String × Option GoError
deriving DecidableEq, Repr

/-- Modelled from the spec: the persistent storage behind the `database` package
(outside the source at hand): the configuration rows, keyed by provider name;
`saveError` tells which writes the storage refuses; `saveCalls` is the trace of
the calls of `SaveMessageSenderConfig`. -/
structure Database where
  rows : List MessageSenderProvider
  saveError : MessageSenderProvider → Option GoError
  saveCalls : List MessageSenderProvider

/-- Modelled from the spec: `database.GetMessageSenderConfigByName(name)`, the
row keyed by `name`; the lookup fails when there is no such row. -/
def GetMessageSenderConfigByName (db : Database) (name : String) :
    Except GoError MessageSenderProvider :=
  match db.rows.find? (fun r => r.Name == name) with
  | some r => .ok r
  | none => .error ⟨"record not found", 0⟩

/-- Modelled from the spec: `database.SaveMessageSenderConfig(row)`. A write the
storage refuses returns its error and changes no row; otherwise the row keyed by
the name is replaced, or the row is added when the name is new. -/
def SaveMessageSenderConfig (row : MessageSenderProvider) (db : Database) :
    Option GoError × Database :=
  match db.saveError row with
  | some e => (some e, { db with saveCalls := db.saveCalls ++ [row] })
  | none =>
    (none,
      { db with
        rows :=
          if db.rows.any (fun r => r.Name == row.Name) then
            db.rows.map (fun r => if r.Name == row.Name then row else r)
          else db.rows ++ [row]
        saveCalls := db.saveCalls ++ [row] })

/-- The function passed to `once.Do` in `Initialize`: the loop over `all`, the
result of `factory.GetAllMessageSenders()`. A `return` of the source ends the
run with the storage as it is (the `log.Printf` calls are not modelled). -/
def bootstrap : List KnownSender → Database → Database
  | [], db => db
  | provider :: rest, db =>
    match GetMessageSenderConfigByName db provider.GetName with
    | .ok _ => bootstrap rest db
    | .error _ =>
      match provider.marshal with
      | (_, some _) => db
      | (configBytes, none) =>
        match SaveMessageSenderConfig ⟨provider.GetName, configBytes⟩ db with
        | (some _, db1) => db1
        | (none, db1) => bootstrap rest db1

/-- What the synchronous part of `Initialize` reads and changes: the result of
`config.Get()`, the storage as the lookup finds it (the goroutine that runs
`bootstrap` is concurrent and may or may not have written by then), and the
trace of the calls of `LoadProvider`. -/
structure InitWorld where
  configGet : Config × Option GoError
  db : Database
  loaded : List (String × String)

/-- Modelled from the spec: `LoadProvider(name, addition)` (same package, outside
the source at hand) constructs the backend `name` with the configuration
`addition` and installs it in the holder; the model records the request. -/
def LoadProvider (name addition : String) (w : InitWorld) : InitWorld :=
  { w with loaded := w.loaded ++ [(name, addition)] }

/-- The function `Initialize()` from `cfg, _ := config.Get()` on. -/
def Initialize (w : InitWorld) : InitWorld :=
  let cfg := w.configGet.1
  if cfg.NotificationMethod == "" || cfg.NotificationMethod == "none" then
    LoadProvider "empty" "{}" w
  else
    match GetMessageSenderConfigByName w.db cfg.NotificationMethod with
    | .error _ => LoadProvider "empty" "{}" w
    | .ok senderConfig => LoadProvider cfg.NotificationMethod senderConfig.Addition w

/-- Proof device: the rows a bootstrap run without failures adds, given the names
that have a row already. -/
def defaultRows : List KnownSender → List String → List MessageSenderProvider
  | [], _ => []
  | provider :: rest, present =>
    if provider.GetName ∈ present then defaultRows rest present
    else
      ⟨provider.GetName, provider.marshal.1⟩
        :: defaultRows rest (present ++ [provider.GetName])

/-- A storage with the given rows that accepts every write. -/
def storageOf (rows : List MessageSenderProvider) : Database :=
  { rows := rows, saveError := fun _ => none, saveCalls := [] }

/-- A storage with the given rows that refuses to write a row named `name`. -/
def storageRefusing (name : String) (rows : List MessageSenderProvider) : Database :=
  { rows := rows,
    saveError := fun row => if row.Name = name then some ⟨"disk full", 0⟩ else none,
    saveCalls := [] }

/-- A provider kind whose default configuration serializes. -/
def telegramSender : KnownSender := ⟨"telegram", ("telegram-defaults", none)⟩

/-- A provider kind whose default configuration serializes. -/
def emailSender : KnownSender := ⟨"email", ("email-defaults", none)⟩

/-- A provider kind whose default configuration does not serialize. -/
def brokenSender : KnownSender := ⟨"webhook", ("", some ⟨"json: unsupported type", 0⟩)⟩

/-- Notifications disabled, `telegram` selected, and a row for it persisted. -/
def disabledTelegram : InitWorld :=
  { configGet := (⟨"telegram", false, ""⟩, none),
    db := storageOf [⟨"telegram", "token-and-chat"⟩],
    loaded := [] }

/-! ## `item.Parse` (`utils/item/item.go`) -/

/-- The struct `Item`; the field `Type_` is the field `Type` of the source. -/
structure Item where
  Name : String
  Required : Bool
  Type_ : String
  Options : String
  Default : String
  Help : String
deriving DecidableEq, Repr

/-- Modelled from the Go standard library (`reflect.StructField`): what `Parse`
reads of a field, its tag as the list of its key-value pairs and the result of
`field.Type.Name()`, which is empty for an unnamed type. -/
structure StructField where
  Tag : List (String × String)
  TypeName : String
deriving DecidableEq, Repr

/-- Modelled from the Go standard library: `tag.Get(key)`, the value of the
first pair with that key, the empty string when there is none. -/
def StructField.TagGet (field : StructField) (key : String) : String :=
  match field.Tag.find? (fun kv => kv.1 == key) with
  | some kv => kv.2
  | none => ""

/-- Modelled from the Go standard library (`reflect.Value`): the argument of
`Parse` as reflection sees it, a struct with its fields in declaration order, a
pointer to a value, a nil pointer, or a value of another kind. -/
inductive Value where
  | struct (fields : List StructField)
  | ptr (elem : Value)
  | nilPtr
  | other
deriving Repr

/-- The function `contains(slice, s)`. -/
def contains : List String → String → Bool
  | [], _ => false
  | v :: rest, s => if v == s then true else contains rest s

/-- The body of the loop of `Parse` for one field: the item it appends. -/
def parseField (field : StructField) : Item :=
  let allowTypes := ["option", "richtext"]
  let typ := field.TagGet "type"
  let typ := if !contains allowTypes typ then field.TypeName else typ
  let item : Item :=
    { Name := field.TagGet "json"
      Required := field.TagGet "required" == "true"
      Type_ := typ
      Options := field.TagGet "options"
      Default := field.TagGet "default"
      Help := field.TagGet "help" }
  if item.Type_ == "" then { item with Type_ := "string" } else item

/-- The function `Parse(v)`. The result is `none` when `val.NumField()` panics:
the value, after one pointer has been followed, is not a struct. -/
def Parse (v : Value) : Option (List Item) :=
  let val := match v with
    | .ptr elem => elem
    | .nilPtr => .other
    | v => v
  match val with
  | .struct fields => some (fields.foldl (fun items field => items ++ [parseField field]) [])
  | _ => none

/-- The item of a field in the words of the claim: the tag values, `Required`
exactly when the `required` tag is `true`, and as type the `type` tag when it is
`option` or `richtext`, else the name of the field's Go type, else `string`. -/
def expectedItem (field : StructField) : Item :=
  { Name := field.TagGet "json"
    Required := decide (field.TagGet "required" = "true")
    Type_ :=
      if field.TagGet "type" = "option" ∨ field.TagGet "type" = "richtext" then
        field.TagGet "type"
      else if field.TypeName = "" then "string"
      else field.TypeName
    Options := field.TagGet "options"
    Default := field.TagGet "default"
    Help := field.TagGet "help" }

/-- The fields of a configuration struct: a required string, an option list and
a field of an unnamed type without a `type` tag. -/
def sampleFields : List StructField :=
  [ ⟨[("json", "token"), ("required", "true"), ("help", "Bot token")], "string"⟩,
    ⟨[("json", "mode"), ("type", "option"), ("options", "a,b"), ("default", "a")], "string"⟩,
    ⟨[("json", "headers")], ""⟩ ]

/-! ## Theorems -/

/-! ### The retry loops -/

theorem callSendText_eq_invoke (p : IMessageSender σ) (m t : String) (w : World σ) :
    callSendText p m t w = invoke (fun s => p.SendTextMessage s m t) (Call.sendText m t) w :=
  rfl

theorem callSendEvent_eq_invoke (f : σ → EventMessage → Option GoError × σ)
    (event : EventMessage) (w : World σ) :
    callSendEvent f event w = invoke (fun s => f s event) (Call.sendEvent event) w :=
  rfl

theorem invoke_snd (step : σ → Option GoError × σ) (c : Call) (w : World σ) :
    (invoke step c w).2 = afterCalls step c 1 w := rfl

theorem invoke_fst (step : σ → Option GoError × σ) (c : Call) (w : World σ) :
    (invoke step c w).1 = resultAt step 0 w.providerState := rfl

theorem afterCalls_zero (step : σ → Option GoError × σ) (c : Call) (w : World σ) :
    afterCalls step c 0 w = w := by
  cases w
  simp [afterCalls, stateAfter]

theorem afterCalls_succ (step : σ → Option GoError × σ) (c : Call) (k : Nat) (w : World σ) :
    afterCalls step c k (afterCalls step c 1 w) = afterCalls step c (k + 1) w := by
  simp [afterCalls, stateAfter, List.replicate_succ]

theorem resultAt_succ (step : σ → Option GoError × σ) (c : Call) (j : Nat) (w : World σ) :
    resultAt step j (afterCalls step c 1 w).providerState = resultAt step (j + 1) w.providerState :=
  rfl

theorem sendTextLoop_eq_retry (p : IMessageSender σ) (m t : String) :
    ∀ (n : Nat) (err : Option GoError) (w : World σ), w.currentProvider = some p →
      sendTextLoop m t n err w =
        retry (fun s => p.SendTextMessage s m t) (Call.sendText m t) (fun _ => false)
          ("Message sent: " ++ t)
          (fun e => "Failed to send message after 3 attempts: " ++ e.Error ++ "," ++ t)
          n err w := by
  intro n
  induction n with
  | zero => intro err w _; cases err <;> rfl
  | succ n ih =>
    intro err w hp
    simp only [sendTextLoop, retry, CurrentProvider, hp, callSendText_eq_invoke]
    rcases h : invoke (fun s => p.SendTextMessage s m t) (Call.sendText m t) w with ⟨r, w1⟩
    have hw1 : w1.currentProvider = some p := by
      have : w1 = (invoke (fun s => p.SendTextMessage s m t) (Call.sendText m t) w).2 := by
        rw [h]
      rw [this]; exact hp
    cases r with
    | none => rfl
    | some e => simp [ih (some e) w1 hw1]

theorem sendEventLoop_eq_retry (f : σ → EventMessage → Option GoError × σ)
    (event : EventMessage) :
    ∀ (n : Nat) (err : Option GoError) (w : World σ),
      sendEventLoop f event n err w =
        retry (fun s => f s event) (Call.sendEvent event) (fun e => e.Error == shortResponse)
          ("Event message sent: " ++ event.Event)
          (fun e => "Failed to send event message after 3 attempts: " ++ e.Error ++ ","
            ++ event.Event)
          n err w := by
  intro n
  induction n with
  | zero => intro err w; cases err <;> rfl
  | succ n ih =>
    intro err w
    simp only [sendEventLoop, retry, callSendEvent_eq_invoke]
    rcases invoke (fun s => f s event) (Call.sendEvent event) w with ⟨r, w1⟩
    cases r with
    | none => rfl
    | some e => simp [ih (some e) w1]

theorem sendEventTextLoop_eq_retry (p : IMessageSender σ) (m : String) (event : EventMessage) :
    ∀ (n : Nat) (err : Option GoError) (w : World σ), w.currentProvider = some p →
      sendEventTextLoop m event n err w =
        retry (fun s => p.SendTextMessage s m event.Event) (Call.sendText m event.Event)
          (fun e => e.Error == shortResponse)
          ("Event message sent: " ++ event.Event)
          (fun e => "Failed to send event message after 3 attempts: " ++ e.Error ++ ","
            ++ event.Event)
          n err w := by
  intro n
  induction n with
  | zero => intro err w _; cases err <;> rfl
  | succ n ih =>
    intro err w hp
    simp only [sendEventTextLoop, retry, CurrentProvider, hp, callSendText_eq_invoke]
    rcases h : invoke (fun s => p.SendTextMessage s m event.Event)
      (Call.sendText m event.Event) w with ⟨r, w1⟩
    have hw1 : w1.currentProvider = some p := by
      have : w1 = (invoke (fun s => p.SendTextMessage s m event.Event)
          (Call.sendText m event.Event) w).2 := by
        rw [h]
      rw [this]; exact hp
    cases r with
    | none => rfl
    | some e => simp [ih (some e) w1 hw1]

theorem retry_succ (step : σ → Option GoError × σ) (c : Call) (benign : GoError → Bool)
    (okMsg : String) (failMsg : GoError → String) (n : Nat) (err : Option GoError)
    (w : World σ) :
    retry step c benign okMsg failMsg (n + 1) err w =
      match invoke step c w with
      | (none, w1) => .ok (none, auditlog.Log "" "" okMsg "info" w1)
      | (some e, w1) =>
        if benign e then .ok (none, auditlog.Log "" "" okMsg "info" w1)
        else retry step c benign okMsg failMsg n (some e) w1 := rfl

/-- The loop stops with success at the first accepted result, after exactly
that many invocations. -/
theorem retry_accepts (step : σ → Option GoError × σ) (c : Call) (benign : GoError → Bool)
    (okMsg : String) (failMsg : GoError → String) :
    ∀ (k n : Nat) (err : Option GoError) (w : World σ), k < n →
      (∀ j, j < k → accepted benign (resultAt step j w.providerState) = false) →
      accepted benign (resultAt step k w.providerState) = true →
      retry step c benign okMsg failMsg n err w =
        .ok (none, auditlog.Log "" "" okMsg "info" (afterCalls step c (k + 1) w)) := by
  intro k
  induction k with
  | zero =>
    intro n err w hn _ hok
    obtain ⟨n, rfl⟩ : ∃ m, n = m + 1 := ⟨n - 1, by omega⟩
    rw [← invoke_fst step c w] at hok
    rw [retry_succ]
    rcases h : invoke step c w with ⟨r, w1⟩
    have hw1 : w1 = afterCalls step c 1 w := by rw [← invoke_snd, h]
    rw [h] at hok
    cases r with
    | none => simp [hw1]
    | some e =>
      have : benign e = true := hok
      simp [this, hw1]
  | succ k ih =>
    intro n err w hn hfail hok
    obtain ⟨n, rfl⟩ : ∃ m, n = m + 1 := ⟨n - 1, by omega⟩
    have h0 := hfail 0 (Nat.succ_pos k)
    rw [← invoke_fst step c w] at h0
    rw [retry_succ]
    rcases h : invoke step c w with ⟨r, w1⟩
    have hw1 : w1 = afterCalls step c 1 w := by rw [← invoke_snd, h]
    rw [h] at h0
    cases r with
    | none => simp [accepted] at h0
    | some e =>
      have hb : benign e = false := h0
      simp only [hb, Bool.false_eq_true, if_false]
      subst hw1
      rw [ih n (some e) (afterCalls step c 1 w) (by omega)
        (fun j hj => hfail (j + 1) (by omega)) hok, afterCalls_succ]

/-- When no result is accepted the loop runs all its iterations and returns
the error of the last one. -/
theorem retry_exhausts (step : σ → Option GoError × σ) (c : Call) (benign : GoError → Bool)
    (okMsg : String) (failMsg : GoError → String) :
    ∀ (n : Nat) (err : Option GoError) (w : World σ),
      (∀ j, j < n + 1 → accepted benign (resultAt step j w.providerState) = false) →
      ∃ e, resultAt step n w.providerState = some e ∧
        retry step c benign okMsg failMsg (n + 1) err w =
          .ok (some e, auditlog.Log "" "" (failMsg e) "error" (afterCalls step c (n + 1) w)) := by
  intro n
  induction n with
  | zero =>
    intro err w hfail
    have h0 := hfail 0 (by omega)
    rw [← invoke_fst step c w] at h0
    rw [retry_succ]
    rcases h : invoke step c w with ⟨r, w1⟩
    have hw1 : w1 = afterCalls step c 1 w := by rw [← invoke_snd, h]
    have hr : resultAt step 0 w.providerState = r := by rw [← invoke_fst step c w, h]
    rw [h] at h0
    cases r with
    | none => simp [accepted] at h0
    | some e =>
      have hb : benign e = false := h0
      exact ⟨e, hr, by simp [hb, retry, hw1]⟩
  | succ n ih =>
    intro err w hfail
    have h0 := hfail 0 (by omega)
    rw [← invoke_fst step c w] at h0
    rw [retry_succ]
    rcases h : invoke step c w with ⟨r, w1⟩
    have hw1 : w1 = afterCalls step c 1 w := by rw [← invoke_snd, h]
    rw [h] at h0
    cases r with
    | none => simp [accepted] at h0
    | some e0 =>
      have hb : benign e0 = false := h0
      subst hw1
      obtain ⟨e, he, hrun⟩ := ih (some e0) (afterCalls step c 1 w)
        (fun j hj => hfail (j + 1) (by omega))
      refine ⟨e, he, ?_⟩
      simp only [hb, Bool.false_eq_true, if_false]
      rw [hrun, afterCalls_succ]

/-- The loop always returns, after at least one and at most `n` invocations. -/
theorem retry_returns (step : σ → Option GoError × σ) (c : Call) (benign : GoError → Bool)
    (okMsg : String) (failMsg : GoError → String) :
    ∀ (n : Nat) (err : Option GoError) (w : World σ),
      ∃ r w1 k, retry step c benign okMsg failMsg (n + 1) err w = .ok (r, w1) ∧
        1 ≤ k ∧ k ≤ n + 1 ∧ w1.calls = w.calls ++ List.replicate k c := by
  intro n
  induction n with
  | zero =>
    intro err w
    rw [retry_succ]
    rcases h : invoke step c w with ⟨r, w1⟩
    have hw1 : w1 = afterCalls step c 1 w := by rw [← invoke_snd, h]
    cases r with
    | none =>
      exact ⟨none, auditlog.Log "" "" okMsg "info" w1, 1, rfl, le_refl _, le_refl _,
        by simp [hw1, auditlog.Log, afterCalls]⟩
    | some e =>
      by_cases hb : benign e = true
      · exact ⟨none, auditlog.Log "" "" okMsg "info" w1, 1, by simp [hb], le_refl _, le_refl _,
          by simp [hw1, auditlog.Log, afterCalls]⟩
      · exact ⟨some e, auditlog.Log "" "" (failMsg e) "error" w1, 1, by simp [hb, retry],
          le_refl _, le_refl _, by simp [hw1, auditlog.Log, afterCalls]⟩
  | succ n ih =>
    intro err w
    rw [retry_succ]
    rcases h : invoke step c w with ⟨r, w1⟩
    have hw1 : w1 = afterCalls step c 1 w := by rw [← invoke_snd, h]
    cases r with
    | none =>
      exact ⟨none, auditlog.Log "" "" okMsg "info" w1, 1, rfl, le_refl _, by omega,
        by simp [hw1, auditlog.Log, afterCalls]⟩
    | some e =>
      by_cases hb : benign e = true
      · exact ⟨none, auditlog.Log "" "" okMsg "info" w1, 1, by simp [hb], le_refl _, by omega,
          by simp [hw1, auditlog.Log, afterCalls]⟩
      · obtain ⟨r2, w2, k, hrun, hk1, hk2, hcalls⟩ := ih (some e) w1
        refine ⟨r2, w2, k + 1, ?_, by omega, by omega, ?_⟩
        · simp only [hb, if_false]
          exact hrun
        · rw [hcalls, hw1]
          simp [afterCalls, List.replicate_succ]

theorem accepted_never (r : Option GoError) (h : r ≠ none) :
    accepted (fun _ => false) r = false := by
  cases r with
  | none => exact absurd rfl h
  | some e => rfl

theorem benignText_eq : benignText = shortResponse := by decide

theorem accepted_iff_delivered (r : Option GoError) :
    accepted (fun e => e.Error == shortResponse) r = true ↔ delivered r := by
  cases r with
  | none => simp [accepted, delivered]
  | some e => simp [accepted, delivered, GoError.Error, benignText_eq]

theorem not_accepted_of_not_delivered (r : Option GoError) (h : ¬ delivered r) :
    accepted (fun e => e.Error == shortResponse) r = false := by
  cases hacc : accepted (fun e => e.Error == shortResponse) r with
  | false => rfl
  | true => exact absurd ((accepted_iff_delivered r).1 hacc) h

theorem SendTextMessage_enabled (w : World σ) (p : IMessageSender σ) (cfg : Config)
    (message title : String) (hp : w.currentProvider = some p)
    (hc : w.configGet = (cfg, none)) (hen : cfg.NotificationEnabled = true) :
    SendTextMessage message title w =
      retry (fun s => p.SendTextMessage s message title) (Call.sendText message title)
        (fun _ => false) ("Message sent: " ++ title)
        (fun e => "Failed to send message after 3 attempts: " ++ e.Error ++ "," ++ title)
        3 none w := by
  simp only [SendTextMessage, CurrentProvider, hp, hc, hen]
  exact sendTextLoop_eq_retry p message title 3 none w hp

theorem SendEvent_enabled_event (w : World σ) (p : IMessageSender σ) (cfg : Config)
    (order : List Placeholder) (event : EventMessage)
    (f : σ → EventMessage → Option GoError × σ) (hp : w.currentProvider = some p)
    (hc : w.configGet = (cfg, none)) (hen : cfg.NotificationEnabled = true)
    (hcap : p.SendEvent = some f) :
    SendEvent order event w =
      retry (fun s => f s event) (Call.sendEvent event) (fun e => e.Error == shortResponse)
        ("Event message sent: " ++ event.Event)
        (fun e => "Failed to send event message after 3 attempts: " ++ e.Error ++ ","
          ++ event.Event)
        3 none w := by
  simp only [SendEvent, CurrentProvider, hp, hc, hen, Option.bind, hcap]
  exact sendEventLoop_eq_retry f event 3 none w

theorem SendEvent_enabled_text (w : World σ) (p : IMessageSender σ) (cfg : Config)
    (order : List Placeholder) (event : EventMessage) (hp : w.currentProvider = some p)
    (hc : w.configGet = (cfg, none)) (hen : cfg.NotificationEnabled = true)
    (hcap : p.SendEvent = none) :
    SendEvent order event w =
      retry
        (fun s => p.SendTextMessage s
          (parseTemplate order
            (if cfg.NotificationTemplate = "" then defaultTemplate
              else cfg.NotificationTemplate) event) event.Event)
        (Call.sendText
          (parseTemplate order
            (if cfg.NotificationTemplate = "" then defaultTemplate
              else cfg.NotificationTemplate) event) event.Event)
        (fun e => e.Error == shortResponse)
        ("Event message sent: " ++ event.Event)
        (fun e => "Failed to send event message after 3 attempts: " ++ e.Error ++ ","
          ++ event.Event)
        3 none w := by
  simp only [SendEvent, CurrentProvider, hp, hc, hen, Option.bind, hcap, beq_iff_eq]
  exact sendEventTextLoop_eq_retry p _ event 3 none w hp

/-! ### Dispatch -/

/-- C1: with a provider installed and notifications enabled, when the backend's
send-text fails on every call, `SendTextMessage` calls it exactly three times
(each time with the given message and title) and returns the error of the third
call. -/
theorem SendTextMessage_always_failing (w : World σ) (p : IMessageSender σ) (cfg : Config)
    (message title : String) (hp : w.currentProvider = some p)
    (hc : w.configGet = (cfg, none)) (hen : cfg.NotificationEnabled = true)
    (hfail : ∀ s m t, (p.SendTextMessage s m t).1 ≠ none) :
    ∃ e w1, SendTextMessage message title w = .ok (some e, w1) ∧
      w1.calls = w.calls ++ List.replicate 3 (Call.sendText message title) ∧
      resultAt (fun s => p.SendTextMessage s message title) 2 w.providerState = some e := by
  obtain ⟨e, he, hrun⟩ :=
    retry_exhausts (fun s => p.SendTextMessage s message title) (Call.sendText message title)
      (fun _ => false) ("Message sent: " ++ title)
      (fun e => "Failed to send message after 3 attempts: " ++ e.Error ++ "," ++ title)
      2 none w (fun j _ => accepted_never _ (hfail _ _ _))
  exact ⟨e, _, (SendTextMessage_enabled w p cfg message title hp hc hen).trans hrun, rfl, he⟩

/-- Instance of C1: the always-failing stub is called three times and the error
returned is the one of the third call. -/
theorem SendTextMessage_always_failing_witness :
    ∃ e w1, SendTextMessage "disk full" "Alert"
        (stubWorld (some alwaysFailing) (enabledConfig, none)) = .ok (some e, w1) ∧
      w1.calls = [] ++ List.replicate 3 (Call.sendText "disk full" "Alert") ∧
      resultAt (fun s => alwaysFailing.SendTextMessage s "disk full" "Alert") 2 0 = some e :=
  SendTextMessage_always_failing (stubWorld (some alwaysFailing) (enabledConfig, none))
    alwaysFailing enabledConfig "disk full" "Alert" rfl rfl rfl
    (fun _ _ _ => by simp [alwaysFailing])

/-- C2: with a provider installed and notifications enabled, when the `k`-th
send-text call (1 ≤ k ≤ 3) is the first that returns no error, `SendTextMessage`
returns no error and the backend is called exactly `k` times. -/
theorem SendTextMessage_first_success (w : World σ) (p : IMessageSender σ) (cfg : Config)
    (message title : String) (k : Nat) (hp : w.currentProvider = some p)
    (hc : w.configGet = (cfg, none)) (hen : cfg.NotificationEnabled = true)
    (hk1 : 1 ≤ k) (hk3 : k ≤ 3)
    (hfail : ∀ j, j + 1 < k →
      resultAt (fun s => p.SendTextMessage s message title) j w.providerState ≠ none)
    (hok : resultAt (fun s => p.SendTextMessage s message title) (k - 1) w.providerState
      = none) :
    ∃ w1, SendTextMessage message title w = .ok (none, w1) ∧
      w1.calls = w.calls ++ List.replicate k (Call.sendText message title) := by
  obtain ⟨k, rfl⟩ : ∃ m, k = m + 1 := ⟨k - 1, by omega⟩
  have hrun :=
    retry_accepts (fun s => p.SendTextMessage s message title) (Call.sendText message title)
      (fun _ => false) ("Message sent: " ++ title)
      (fun e => "Failed to send message after 3 attempts: " ++ e.Error ++ "," ++ title)
      k 3 none w (by omega) (fun j hj => accepted_never _ (hfail j (by omega)))
      (by rw [Nat.add_sub_cancel] at hok; rw [hok]; rfl)
  exact ⟨_, (SendTextMessage_enabled w p cfg message title hp hc hen).trans hrun, rfl⟩

/-- Instance of C2: the stub that fails twice and then succeeds is called three
times and `SendTextMessage` returns no error. -/
theorem SendTextMessage_first_success_witness :
    ∃ w1, SendTextMessage "disk full" "Alert"
        (stubWorld (some failsTwice) (enabledConfig, none)) = .ok (none, w1) ∧
      w1.calls = [] ++ List.replicate 3 (Call.sendText "disk full" "Alert") :=
  SendTextMessage_first_success (stubWorld (some failsTwice) (enabledConfig, none))
    failsTwice enabledConfig "disk full" "Alert" 3 rfl rfl rfl (by decide) (by decide)
    (fun j hj => by
      have hj2 : j < 2 := by omega
      interval_cases j <;> simp [resultAt, stateAfter, failsTwice, stubWorld])
    (by simp [resultAt, stateAfter, failsTwice, stubWorld])

/-- C3: with a provider installed and notifications disabled, `SendTextMessage`
and `SendEvent` return no error and leave the world as it was: no backend call
is made and nothing is appended to the audit log. -/
theorem disabled_is_silent (w : World σ) (p : IMessageSender σ) (cfg : Config)
    (message title : String) (order : List Placeholder) (event : EventMessage)
    (hp : w.currentProvider = some p) (hc : w.configGet = (cfg, none))
    (hdis : cfg.NotificationEnabled = false) :
    SendTextMessage message title w = .ok (none, w) ∧
      SendEvent order event w = .ok (none, w) := by
  constructor
  · simp [SendTextMessage, CurrentProvider, hp, hc, hdis]
  · simp [SendEvent, CurrentProvider, hp, hc, hdis]

/-- Instance of C3, with a backend that would fail if it were called. -/
theorem disabled_is_silent_witness :
    SendTextMessage "disk full" "Alert"
        (stubWorld (some alwaysFailing) (disabledConfig, none))
        = .ok (none, stubWorld (some alwaysFailing) (disabledConfig, none)) ∧
      SendEvent Placeholder.all sampleEvent
        (stubWorld (some alwaysFailing) (disabledConfig, none))
        = .ok (none, stubWorld (some alwaysFailing) (disabledConfig, none)) :=
  disabled_is_silent (stubWorld (some alwaysFailing) (disabledConfig, none)) alwaysFailing
    disabledConfig "disk full" "Alert" Placeholder.all sampleEvent rfl rfl rfl

/-- C4: with no provider installed, `SendTextMessage` and `SendEvent` return
the not-initialized error and leave the world as it was (no backend call, no
audit entry), whatever `config.Get()` would return. -/
theorem uninitialized_is_error (w : World σ) (message title : String)
    (order : List Placeholder) (event : EventMessage) (hp : w.currentProvider = none) :
    SendTextMessage message title w
        = .ok (some (fmt.Errorf "message sender provider is not initialized"), w) ∧
      SendEvent order event w
        = .ok (some (fmt.Errorf "message sender provider is not initialized"), w) := by
  constructor
  · simp [SendTextMessage, CurrentProvider, hp]
  · simp [SendEvent, CurrentProvider, hp]

/-- Instance of C4, with a configuration that is enabled and whose read
succeeds. -/
theorem uninitialized_is_error_witness :
    SendTextMessage "disk full" "Alert" (stubWorld none (enabledConfig, none))
        = .ok (some (fmt.Errorf "message sender provider is not initialized"),
            stubWorld none (enabledConfig, none)) ∧
      SendEvent Placeholder.all sampleEvent (stubWorld none (enabledConfig, none))
        = .ok (some (fmt.Errorf "message sender provider is not initialized"),
            stubWorld none (enabledConfig, none)) :=
  uninitialized_is_error (stubWorld none (enabledConfig, none)) "disk full" "Alert"
    Placeholder.all sampleEvent rfl

/-- C5: with a provider installed and notifications enabled, when the `k`-th
delivery attempt (1 ≤ k ≤ 3) is the first that returns no error or an error with
the benign text, `SendEvent` returns no error after exactly `k` backend calls,
for an event-capable backend and for a text-only one alike. -/
theorem SendEvent_first_delivered (w : World σ) (p : IMessageSender σ) (cfg : Config)
    (order : List Placeholder) (event : EventMessage) (k : Nat)
    (hp : w.currentProvider = some p) (hc : w.configGet = (cfg, none))
    (hen : cfg.NotificationEnabled = true) (hk1 : 1 ≤ k) (hk3 : k ≤ 3)
    (hfail : ∀ j, j + 1 < k →
      ¬ delivered (resultAt (eventAttempt p order cfg event) j w.providerState))
    (hok : delivered (resultAt (eventAttempt p order cfg event) (k - 1) w.providerState)) :
    ∃ w1 new, SendEvent order event w = .ok (none, w1) ∧
      w1.calls = w.calls ++ new ∧ new.length = k := by
  obtain ⟨k, rfl⟩ : ∃ m, k = m + 1 := ⟨k - 1, by omega⟩
  rw [Nat.add_sub_cancel] at hok
  cases hcap : p.SendEvent with
  | none =>
    have hstep : eventAttempt p order cfg event = fun s =>
        p.SendTextMessage s
          (parseTemplate order
            (if cfg.NotificationTemplate = "" then defaultTemplate
              else cfg.NotificationTemplate) event) event.Event := by
      simp only [eventAttempt, hcap]
    rw [hstep] at hfail hok
    have hrun := retry_accepts _
      (Call.sendText
        (parseTemplate order
          (if cfg.NotificationTemplate = "" then defaultTemplate
            else cfg.NotificationTemplate) event) event.Event)
      (fun e => e.Error == shortResponse) ("Event message sent: " ++ event.Event)
      (fun e => "Failed to send event message after 3 attempts: " ++ e.Error ++ ","
        ++ event.Event)
      k 3 none w (by omega)
      (fun j hj => not_accepted_of_not_delivered _ (hfail j (by omega)))
      ((accepted_iff_delivered _).2 hok)
    exact ⟨_, _, (SendEvent_enabled_text w p cfg order event hp hc hen hcap).trans hrun, rfl,
      List.length_replicate _ _⟩
  | some f =>
    have hstep : eventAttempt p order cfg event = fun s => f s event := by
      simp only [eventAttempt, hcap]
    rw [hstep] at hfail hok
    have hrun := retry_accepts _ (Call.sendEvent event)
      (fun e => e.Error == shortResponse) ("Event message sent: " ++ event.Event)
      (fun e => "Failed to send event message after 3 attempts: " ++ e.Error ++ ","
        ++ event.Event)
      k 3 none w (by omega)
      (fun j hj => not_accepted_of_not_delivered _ (hfail j (by omega)))
      ((accepted_iff_delivered _).2 hok)
    exact ⟨_, _, (SendEvent_enabled_event w p cfg order event f hp hc hen hcap).trans hrun,
      rfl, List.length_replicate _ _⟩

/-- Instance of C5: an event-capable stub that answers the first attempt with
the benign error is called once and `SendEvent` returns no error. -/
theorem SendEvent_first_delivered_witness :
    ∃ w1 new, SendEvent Placeholder.all sampleEvent
        (stubWorld (some shortResponder) (enabledConfig, none)) = .ok (none, w1) ∧
      w1.calls = [] ++ new ∧ new.length = 1 :=
  SendEvent_first_delivered (stubWorld (some shortResponder) (enabledConfig, none))
    shortResponder enabledConfig Placeholder.all sampleEvent 1 rfl rfl rfl (by decide)
    (by decide) (fun j hj => absurd hj (by omega))
    (Or.inr ⟨⟨shortResponse, 0⟩, rfl, benignText_eq.symm⟩)

/-- C6: with notifications enabled and a backend without the event capability,
`SendEvent` returns after one to three backend calls, and each of them is a
send-text call whose message is `parseTemplate` applied to the configured
template (the built-in default when none is configured) and the event, and whose
title is the event's name. -/
theorem SendEvent_text_fallback (w : World σ) (p : IMessageSender σ) (cfg : Config)
    (order : List Placeholder) (event : EventMessage)
    (hp : w.currentProvider = some p) (hc : w.configGet = (cfg, none))
    (hen : cfg.NotificationEnabled = true) (hcap : p.SendEvent = none) :
    ∃ r w1 n, SendEvent order event w = .ok (r, w1) ∧ 1 ≤ n ∧ n ≤ 3 ∧
      w1.calls = w.calls ++ List.replicate n
        (Call.sendText
          (parseTemplate order
            (if cfg.NotificationTemplate = "" then
              "{{emoji}}{{emoji}}{{emoji}}\nEvent: {{event}}\nClients: {{client}}\nMessage: {{message}}\nTime: {{time}}"
            else cfg.NotificationTemplate) event)
          event.Event) := by
  rw [SendEvent_enabled_text w p cfg order event hp hc hen hcap]
  exact retry_returns _ _ _ _ _ 2 none w

/-- Instance of C6: the always-failing text-only stub receives the rendered
default template. -/
theorem SendEvent_text_fallback_witness :
    ∃ r w1 n, SendEvent Placeholder.all sampleEvent
        (stubWorld (some alwaysFailing) (enabledConfig, none)) = .ok (r, w1) ∧ 1 ≤ n ∧ n ≤ 3 ∧
      w1.calls = [] ++ List.replicate n
        (Call.sendText
          (parseTemplate Placeholder.all
            (if enabledConfig.NotificationTemplate = "" then
              "{{emoji}}{{emoji}}{{emoji}}\nEvent: {{event}}\nClients: {{client}}\nMessage: {{message}}\nTime: {{time}}"
            else enabledConfig.NotificationTemplate) sampleEvent)
          sampleEvent.Event) :=
  SendEvent_text_fallback (stubWorld (some alwaysFailing) (enabledConfig, none))
    alwaysFailing enabledConfig Placeholder.all sampleEvent rfl rfl rfl rfl

/-- C7: with notifications enabled and a backend with the event capability,
`SendEvent` returns after one to three backend calls, each of them a send-event
call on the unchanged event (never a send-text call); and when every send-event
call returns an error other than the benign one, there are exactly three calls
and the error returned is that of the third. -/
theorem SendEvent_event_capable (w : World σ) (p : IMessageSender σ) (cfg : Config)
    (order : List Placeholder) (event : EventMessage)
    (f : σ → EventMessage → Option GoError × σ)
    (hp : w.currentProvider = some p) (hc : w.configGet = (cfg, none))
    (hen : cfg.NotificationEnabled = true) (hcap : p.SendEvent = some f) :
    (∃ r w1 n, SendEvent order event w = .ok (r, w1) ∧ 1 ≤ n ∧ n ≤ 3 ∧
        w1.calls = w.calls ++ List.replicate n (Call.sendEvent event)) ∧
      ((∀ s, ∃ e, (f s event).1 = some e ∧ e.text ≠ benignText) →
        ∃ e w1, SendEvent order event w = .ok (some e, w1) ∧
          w1.calls = w.calls ++ List.replicate 3 (Call.sendEvent event) ∧
          resultAt (fun s => f s event) 2 w.providerState = some e) := by
  rw [SendEvent_enabled_event w p cfg order event f hp hc hen hcap]
  refine ⟨retry_returns _ _ _ _ _ 2 none w, fun hfail => ?_⟩
  obtain ⟨e, he, hrun⟩ :=
    retry_exhausts (fun s => f s event) (Call.sendEvent event)
      (fun e => e.Error == shortResponse) ("Event message sent: " ++ event.Event)
      (fun e => "Failed to send event message after 3 attempts: " ++ e.Error ++ ","
        ++ event.Event)
      2 none w (fun j _ => not_accepted_of_not_delivered _ (by
        obtain ⟨e, he, hne⟩ := hfail (stateAfter (fun s => f s event) j w.providerState)
        simp only [resultAt, delivered, he]
        rintro (h | ⟨e2, h2, h3⟩)
        · exact absurd h (by simp)
        · cases h2
          exact hne h3))
  exact ⟨e, _, hrun, rfl, he⟩

/-- Instance of C7: the stub whose send-event always fails is called three times
through send-event and the error returned is the one of the third call. -/
theorem SendEvent_event_capable_witness :
    (∃ r w1 n, SendEvent Placeholder.all sampleEvent
          (stubWorld (some eventFailing) (enabledConfig, none)) = .ok (r, w1) ∧
        1 ≤ n ∧ n ≤ 3 ∧ w1.calls = [] ++ List.replicate n (Call.sendEvent sampleEvent)) ∧
      ∃ e w1, SendEvent Placeholder.all sampleEvent
          (stubWorld (some eventFailing) (enabledConfig, none)) = .ok (some e, w1) ∧
        w1.calls = [] ++ List.replicate 3 (Call.sendEvent sampleEvent) ∧
        resultAt (fun s => (some (GoError.mk "boom" s), s + 1)) 2 0 = some e :=
  have h := SendEvent_event_capable (stubWorld (some eventFailing) (enabledConfig, none))
    eventFailing enabledConfig Placeholder.all sampleEvent
    (fun s _ => (some ⟨"boom", s⟩, s + 1)) rfl rfl rfl rfl
  ⟨h.1, h.2 (fun s => ⟨⟨"boom", s⟩, rfl, show "boom" ≠ benignText by decide⟩)⟩

/-! ### Template rendering -/

theorem replaceScan_of_absent (old new : List Char) :
    ∀ s : List Char, ¬ old <:+: s → replaceScan old new 0 s = s := by
  intro s
  induction s with
  | nil => intro _; rfl
  | cons c cs ih =>
    intro h
    have hpre : old.isPrefixOf (c :: cs) = false := by
      cases hb : old.isPrefixOf (c :: cs) with
      | false => rfl
      | true => exact absurd (List.isPrefixOf_iff_prefix.1 hb).isInfix h
    simp only [replaceScan, hpre, Bool.false_eq_true, if_false]
    rw [ih (fun hi => h (List.infix_cons hi))]

theorem ReplaceAll_of_absent (s old new : String) (h : ¬ old.data <:+: s.data) :
    ReplaceAll s old new = s := by
  unfold ReplaceAll
  split
  · rename_i hempty
    have : old.data = [] := by simpa using hempty
    exact absurd (this ▸ List.nil_infix) h
  · rw [replaceScan_of_absent old.data new.data s.data h]

theorem parseTemplate_of_no_key (order : List Placeholder) (messageTemplate : String)
    (event : EventMessage)
    (h : ∀ ph : Placeholder, ¬ ph.key.data <:+: messageTemplate.data) :
    parseTemplate order messageTemplate event = messageTemplate := by
  unfold parseTemplate
  induction order with
  | nil => rfl
  | cons ph rest ih =>
    rw [List.foldl_cons, ReplaceAll_of_absent _ _ _ (h ph)]
    exact ih

/-- C8: a template in which none of the five placeholders occurs as a substring
is returned unchanged by `parseTemplate`, for every event and every iteration
order of the map. -/
theorem parseTemplate_without_placeholders (order : List Placeholder)
    (messageTemplate : String) (event : EventMessage)
    (h : ∀ key ∈ ["{{event}}", "{{client}}", "{{time}}", "{{message}}", "{{emoji}}"],
      ¬ String.data key <:+: messageTemplate.data) :
    parseTemplate order messageTemplate event = messageTemplate := by
  apply parseTemplate_of_no_key
  intro ph
  cases ph <;> exact h _ (by simp [Placeholder.key])

/-- Instance of C8: the unknown placeholder `{{foo}}` is left verbatim. -/
theorem parseTemplate_without_placeholders_witness :
    parseTemplate Placeholder.all "Host {{foo}} is down" sampleEvent = "Host {{foo}} is down" :=
  parseTemplate_without_placeholders Placeholder.all "Host {{foo}} is down" sampleEvent
    (by decide)

theorem foldl_append_singleton {α β : Type} (g : α → β) :
    ∀ (l : List α) (acc : List β),
      l.foldl (fun names c => names ++ [g c]) acc = acc ++ l.map g := by
  intro l
  induction l with
  | nil => intro acc; simp
  | cons a l ih => intro acc; simp [ih]

theorem dropWhile_all_iff (p : Char → Bool) (l : List Char) :
    (∀ x ∈ l.dropWhile p, p x = true) ↔ ∀ x ∈ l, p x = true := by
  induction l with
  | nil => simp
  | cons a l ih =>
    by_cases ha : p a = true
    · simp [List.dropWhile_cons, ha, ih]
    · simp [List.dropWhile_cons, ha]

theorem TrimSpace_eq_empty (s : String) : (TrimSpace s == "") = isBlank s := by
  have h1 : (TrimSpace s = "") ↔ ∀ x ∈ s.data, isSpace x = true := by
    rw [String.ext_iff]
    simp only [TrimSpace, List.reverse_eq_nil_iff, List.dropWhile_eq_nil_iff,
      List.mem_reverse]
    exact dropWhile_all_iff isSpace s.data
  cases hb : isBlank s with
  | true =>
    have : ∀ x ∈ s.data, isSpace x = true := by simpa [isBlank] using hb
    simpa using h1.2 this
  | false =>
    have hne : TrimSpace s ≠ "" := by
      intro heq
      have := h1.1 heq
      have hb2 : isBlank s = true := by simpa [isBlank] using this
      rw [hb] at hb2
      exact Bool.false_ne_true hb2
    simpa using hne

theorem clientNames_eq_map (event : EventMessage) :
    clientNames event = event.Clients.map clientLabel := by
  have hloop : clientNames event = event.Clients.foldl
      (fun names c => names ++ [if TrimSpace c.Name == "" then c.UUID else c.Name]) [] := rfl
  rw [hloop, foldl_append_singleton
    (fun c : Client => if TrimSpace c.Name == "" then c.UUID else c.Name)]
  simp only [List.nil_append]
  apply List.map_congr_left
  intro c _
  simp only [clientLabel, TrimSpace_eq_empty]

/-- The separators and elements after the first element of a joined list. -/
theorem intercalate_go_eq (sep : String) :
    ∀ (l : List String) (acc : String),
      String.intercalate.go acc sep l = acc ++ l.foldr (fun x r => sep ++ x ++ r) "" := by
  intro l
  induction l with
  | nil => intro acc; simp [String.intercalate.go]
  | cons a l ih =>
    intro acc
    simp [String.intercalate.go, ih, String.append_assoc]

theorem Join_cons_eq (sep : String) :
    ∀ (l : List String) (a : String),
      Join (a :: l) sep = a ++ l.foldr (fun x r => sep ++ x ++ r) "" := by
  intro l
  induction l with
  | nil => intro a; simp [Join]
  | cons b l ih =>
    intro a
    simp [Join, ih, String.append_assoc]

theorem Join_eq_intercalate (l : List String) (sep : String) :
    Join l sep = sep.intercalate l := by
  cases l with
  | nil => rfl
  | cons a l => rw [Join_cons_eq, String.intercalate, intercalate_go_eq]

/-- C9: the value `parseTemplate` substitutes for `{{client}}` is the
", "-join, in the order of the event's clients, of one label per client: the
display name when it is not blank, the identifier when it is. Hence when no
client has a blank name it is the join of the names alone, and a client whose
name is blank appears as its identifier at its position. -/
theorem joinedClients_spec (event : EventMessage) :
    replaceMap event Placeholder.client
        = ", ".intercalate (event.Clients.map clientLabel) ∧
      ((∀ c ∈ event.Clients, isBlank c.Name = false) →
        replaceMap event Placeholder.client
          = ", ".intercalate (event.Clients.map (fun c => c.Name))) ∧
      (∀ pre c post, event.Clients = pre ++ c :: post → isBlank c.Name = true →
        replaceMap event Placeholder.client
          = ", ".intercalate (pre.map clientLabel ++ c.UUID :: post.map clientLabel)) := by
  have hmain : replaceMap event Placeholder.client
      = ", ".intercalate (event.Clients.map clientLabel) := by
    simp only [replaceMap, joinedClients, clientNames_eq_map, Join_eq_intercalate]
  refine ⟨hmain, fun hall => ?_, fun pre c post hsplit hblank => ?_⟩
  · rw [hmain]
    congr 1
    apply List.map_congr_left
    intro c hc
    simp [clientLabel, hall c hc]
  · rw [hmain, hsplit]
    simp [clientLabel, hblank]

/-- Instance of C9: of the two clients of the sample event the first is shown by
its name and the second, whose name is blank, by its identifier. -/
theorem joinedClients_spec_witness :
    replaceMap sampleEvent Placeholder.client = "{{message}}, u2" :=
  (joinedClients_spec sampleEvent).1.trans (by decide)

/-- C10 fails on the code: two iteration orders of `replaceMap`, both
permutations of its five keys, render the built-in template differently for an
event one of whose clients is named `{{message}}`. -/
theorem parseTemplate_order_dependent :
    [Placeholder.event, .client, .time, .message, .emoji].Perm Placeholder.all ∧
      [Placeholder.message, .emoji, .event, .client, .time].Perm Placeholder.all ∧
      parseTemplate [.event, .client, .time, .message, .emoji] defaultTemplate sampleEvent
        = "XXX\nEvent: Offline\nClients: hello, u2\nMessage: hello\nTime: 2024-01-01T00:00:00Z" ∧
      parseTemplate [.message, .emoji, .event, .client, .time] defaultTemplate sampleEvent
        = "XXX\nEvent: Offline\nClients: {{message}}, u2\nMessage: hello\nTime: 2024-01-01T00:00:00Z" ∧
      parseTemplate [.event, .client, .time, .message, .emoji] defaultTemplate sampleEvent
        ≠ parseTemplate [.message, .emoji, .event, .client, .time] defaultTemplate sampleEvent := by
  refine ⟨by decide, by decide, by decide, by decide, by decide⟩

/-! ### Templates made of text and placeholders -/

theorem replaceScan_skip (old new : List Char) :
    ∀ (l1 l2 : List Char),
      replaceScan old new l1.length (l1 ++ l2) = replaceScan old new 0 l2 := by
  intro l1
  induction l1 with
  | nil => intro l2; rfl
  | cons a l1 ih =>
    intro l2
    simp only [List.length_cons, List.cons_append, replaceScan]
    exact ih l2

theorem replaceScan_zero_cons (old new : List Char) (c : Char) (cs : List Char) :
    replaceScan old new 0 (c :: cs)
      = if old.isPrefixOf (c :: cs) then new ++ replaceScan old new (old.length - 1) cs
        else c :: replaceScan old new 0 cs := rfl

theorem replaceScan_match (c : Char) (cs new rest : List Char) :
    replaceScan (c :: cs) new 0 ((c :: cs) ++ rest)
      = new ++ replaceScan (c :: cs) new 0 rest := by
  have hpre : (c :: cs).isPrefixOf (c :: (cs ++ rest)) = true :=
    List.isPrefixOf_iff_prefix.2 ⟨rest, rfl⟩
  rw [List.cons_append, replaceScan_zero_cons, hpre, if_pos rfl, List.length_cons,
    Nat.add_sub_cancel, replaceScan_skip]

theorem replaceScan_plain (c : Char) (cs new : List Char) :
    ∀ (l rest : List Char), c ∉ l →
      replaceScan (c :: cs) new 0 (l ++ rest) = l ++ replaceScan (c :: cs) new 0 rest := by
  intro l
  induction l with
  | nil => intro rest _; rfl
  | cons a l ih =>
    intro rest hmem
    have hne : c ≠ a := fun h => hmem (by simp [h])
    have hpre : (c :: cs).isPrefixOf (a :: (l ++ rest)) = false := by
      simp [List.isPrefixOf, hne]
    rw [List.cons_append, replaceScan_zero_cons, hpre, if_neg Bool.false_ne_true,
      ih rest (fun h => hmem (List.mem_cons_of_mem _ h)), List.cons_append]

theorem key_data (ph : Placeholder) :
    ∃ body, ph.key.data = openBrace :: openBrace :: body := by
  cases ph <;> exact ⟨_, rfl⟩

theorem replaceScan_other_key (k t : Placeholder) (h : t ≠ k) (new rest : List Char) :
    replaceScan k.key.data new 0 (t.key.data ++ rest)
      = t.key.data ++ replaceScan k.key.data new 0 rest := by
  cases k <;> cases t <;> first
    | exact absurd rfl h
    | simp [Placeholder.key, replaceScan, List.isPrefixOf]

theorem braceFree_not_mem (s : String) (h : braceFree s = true) : openBrace ∉ s.data := by
  intro hmem
  have := (List.all_eq_true.1 h) openBrace hmem
  simp at this

theorem partlyRendered_step (event : EventMessage) (k : Placeholder) (done : List Placeholder)
    (hval : ∀ ph, braceFree (replaceMap event ph) = true) :
    ∀ segs : List Segment, (∀ text, Segment.lit text ∈ segs → braceFree text = true) →
      replaceScan k.key.data (replaceMap event k).data 0 (partlyRendered event done segs)
        = partlyRendered event (k :: done) segs := by
  obtain ⟨body, hkey⟩ := key_data k
  intro segs
  induction segs with
  | nil => intro _; rfl
  | cons seg rest ih =>
    intro hlit
    have ih2 := ih (fun text h => hlit text (List.mem_cons_of_mem _ h))
    cases seg with
    | lit text =>
      have hfree := braceFree_not_mem text (hlit text (List.mem_cons_self _ _))
      simp only [partlyRendered]
      rw [hkey, replaceScan_plain _ _ _ _ _ hfree, ← hkey, ih2]
    | tok ph =>
      simp only [partlyRendered]
      by_cases hdone : ph ∈ done
      · have hfree := braceFree_not_mem _ (hval ph)
        rw [if_pos hdone, if_pos (List.mem_cons_of_mem _ hdone), hkey,
          replaceScan_plain _ _ _ _ _ hfree, ← hkey, ih2]
      · rw [if_neg hdone]
        by_cases hk : ph = k
        · subst hk
          rw [if_pos (List.mem_cons_self _ _)]
          conv_lhs => rw [hkey]
          rw [replaceScan_match, ← hkey, ih2]
        · rw [if_neg (by simp [hk, hdone]), replaceScan_other_key k ph hk, ih2]

theorem parseTemplate_partlyRendered (event : EventMessage) (segs : List Segment)
    (hval : ∀ ph, braceFree (replaceMap event ph) = true)
    (hlit : ∀ text, Segment.lit text ∈ segs → braceFree text = true) :
    ∀ (order done : List Placeholder),
      parseTemplate order ⟨partlyRendered event done segs⟩ event
        = ⟨partlyRendered event (order.reverse ++ done) segs⟩ := by
  intro order
  induction order with
  | nil => intro done; rfl
  | cons k order ih =>
    intro done
    have hstep : ReplaceAll ⟨partlyRendered event done segs⟩ k.key (replaceMap event k)
        = ⟨partlyRendered event (k :: done) segs⟩ := by
      obtain ⟨body, hkey⟩ := key_data k
      unfold ReplaceAll
      rw [if_neg (by simp [hkey])]
      exact congrArg String.mk (partlyRendered_step event k done hval segs hlit)
    have hfold : parseTemplate (k :: order) ⟨partlyRendered event done segs⟩ event
        = parseTemplate order
            (ReplaceAll ⟨partlyRendered event done segs⟩ k.key (replaceMap event k)) event :=
      rfl
    rw [hfold, hstep, ih (k :: done)]
    simp [List.reverse_cons, List.append_assoc]

theorem concat_data (l : List String) : (concat l).data = l.flatMap String.data := by
  induction l with
  | nil => rfl
  | cons s rest ih => simp [concat, String.data_append, ih]

theorem partlyRendered_none (event : EventMessage) (segs : List Segment) :
    partlyRendered event [] segs = (concat (segs.map Segment.source)).data := by
  rw [concat_data]
  induction segs with
  | nil => rfl
  | cons seg rest ih => cases seg <;> simp [partlyRendered, Segment.source, ih]

theorem partlyRendered_all (event : EventMessage) (done : List Placeholder)
    (hall : ∀ ph : Placeholder, ph ∈ done) (segs : List Segment) :
    partlyRendered event done segs = (concat (segs.map (Segment.value event))).data := by
  rw [concat_data]
  induction segs with
  | nil => rfl
  | cons seg rest ih => cases seg <;> simp [partlyRendered, Segment.value, ih, hall]

/-- C11: for a template that is a concatenation of brace-free literal text and
placeholders, and an event whose five substituted values are brace-free,
`parseTemplate` returns the concatenation with every placeholder, at every
occurrence, replaced by its value and the literal text unchanged, whatever the
order in which the map is visited. -/
theorem parseTemplate_of_segments (order : List Placeholder) (segs : List Segment)
    (event : EventMessage) (horder : order.Perm Placeholder.all)
    (hlit : ∀ text, Segment.lit text ∈ segs → braceFree text = true)
    (hval : ∀ ph, braceFree (replaceMap event ph) = true) :
    parseTemplate order (concat (segs.map Segment.source)) event
      = concat (segs.map (Segment.value event)) := by
  have hstart : concat (segs.map Segment.source) = ⟨partlyRendered event [] segs⟩ := by
    rw [partlyRendered_none]
  rw [hstart, parseTemplate_partlyRendered event segs hval hlit order []]
  have hall : ∀ ph : Placeholder, ph ∈ order.reverse ++ [] := by
    intro ph
    have : ph ∈ Placeholder.all := by cases ph <;> simp [Placeholder.all]
    simpa using horder.symm.subset this
  rw [partlyRendered_all event _ hall]

/-- Instance of C11: a template with adjacent and repeated placeholders,
rendered in an order that is not the one of the source. -/
theorem parseTemplate_of_segments_witness :
    parseTemplate [.message, .emoji, .event, .client, .time]
        (concat (sampleSegments.map Segment.source)) plainEvent
      = concat (sampleSegments.map (Segment.value plainEvent)) :=
  parseTemplate_of_segments [.message, .emoji, .event, .client, .time] sampleSegments
    plainEvent (by decide)
    (by
      intro text h
      simp only [sampleSegments, List.mem_cons, Segment.lit.injEq, List.mem_nil_iff,
        reduceCtorEq, false_or, or_false] at h
      rcases h with rfl | rfl | rfl | rfl <;> decide)
    (by intro ph; cases ph <;> decide)

/-! ### Audit log and returned errors -/

/-- What the loop leaves and returns: the world after some `k` invocations (at
least one, at most the number of iterations) with one audit entry appended, an
`info` entry when it returns no error, an `error` entry made from the returned
error otherwise; an error is returned only after all iterations, and it is the
result of the last one. -/
theorem retry_outcome (step : σ → Option GoError × σ) (c : Call) (benign : GoError → Bool)
    (okMsg : String) (failMsg : GoError → String) (n : Nat) (err : Option GoError)
    (w : World σ) :
    (∃ k, 1 ≤ k ∧ k ≤ n + 1 ∧
        retry step c benign okMsg failMsg (n + 1) err w
          = .ok (none, auditlog.Log "" "" okMsg "info" (afterCalls step c k w))) ∨
      ((∀ j, j < n + 1 → accepted benign (resultAt step j w.providerState) = false) ∧
        ∃ e, resultAt step n w.providerState = some e ∧
          retry step c benign okMsg failMsg (n + 1) err w
            = .ok (some e, auditlog.Log "" "" (failMsg e) "error"
                (afterCalls step c (n + 1) w))) := by
  by_cases hall : ∀ j, j < n + 1 → accepted benign (resultAt step j w.providerState) = false
  · exact Or.inr ⟨hall, retry_exhausts step c benign okMsg failMsg n err w hall⟩
  · left
    have hex : ∃ j, j < n + 1 ∧ accepted benign (resultAt step j w.providerState) = true := by
      by_contra hno
      apply hall
      intro j hj
      cases hacc : accepted benign (resultAt step j w.providerState) with
      | false => rfl
      | true => exact absurd ⟨j, hj, hacc⟩ hno
    classical
    let k := Nat.find hex
    have hk : k < n + 1 ∧ accepted benign (resultAt step k w.providerState) = true :=
      Nat.find_spec hex
    have hmin : ∀ j, j < k → accepted benign (resultAt step j w.providerState) = false := by
      intro j hj
      cases hacc : accepted benign (resultAt step j w.providerState) with
      | false => rfl
      | true => exact absurd ⟨by omega, hacc⟩ (Nat.find_min hex hj)
    exact ⟨k + 1, by omega, by omega,
      retry_accepts step c benign okMsg failMsg k (n + 1) err w hk.1 hmin hk.2⟩

/-- The loop appends exactly one audit entry, with empty actor and target: the
success message with severity `info` when it returns no error, the failure
message of the returned error with severity `error` otherwise. -/
theorem retry_audit (step : σ → Option GoError × σ) (c : Call) (benign : GoError → Bool)
    (okMsg : String) (failMsg : GoError → String) (n : Nat) (err : Option GoError)
    (w : World σ) :
    ∃ r w1 entry, retry step c benign okMsg failMsg (n + 1) err w = .ok (r, w1) ∧
      w1.audit = w.audit ++ [entry] ∧ entry.actor = "" ∧ entry.target = "" ∧
      (r = none → entry.severity = "info" ∧ entry.message = okMsg) ∧
      (∀ e, r = some e → entry.severity = "error" ∧ entry.message = failMsg e ∧
        resultAt step n w.providerState = some e) := by
  rcases retry_outcome step c benign okMsg failMsg n err w with
    ⟨k, _, _, hrun⟩ | ⟨_, e, he, hrun⟩
  · exact ⟨none, _, ⟨"", "", okMsg, "info"⟩, hrun, rfl, rfl, rfl, fun _ => ⟨rfl, rfl⟩,
      fun e h => by cases h⟩
  · exact ⟨some e, _, ⟨"", "", failMsg e, "error"⟩, hrun, rfl, rfl, rfl,
      (fun h => by cases h), (fun e2 h => by cases h; exact ⟨rfl, rfl, he⟩)⟩

theorem infix_append_right (a b : String) : b.data <:+: (a ++ b).data :=
  ⟨a.data, [], by simp [String.data_append]⟩

theorem infix_failure_text (a b c d : String) : b.data <:+: (a ++ b ++ c ++ d).data :=
  ⟨a.data, c.data ++ d.data, by simp [String.data_append]⟩

/-- C16: a `SendTextMessage` or `SendEvent` call that passes the pre-checks
appends exactly one audit entry, with empty actor and target. When the call
returns no error the entry has severity `info` and its message contains the
title (the event's name for `SendEvent`); when it returns an error, that error
is the result of the third attempt, the entry has severity `error` and its
message contains the error's text and the title (event name). -/
theorem dispatch_audits_once (w : World σ) (p : IMessageSender σ) (cfg : Config)
    (message title : String) (order : List Placeholder) (event : EventMessage)
    (hp : w.currentProvider = some p) (hc : w.configGet = (cfg, none))
    (hen : cfg.NotificationEnabled = true) :
    (∃ r w1 entry, SendTextMessage message title w = .ok (r, w1) ∧
        w1.audit = w.audit ++ [entry] ∧ entry.actor = "" ∧ entry.target = "" ∧
        (r = none → entry.severity = "info" ∧ title.data <:+: entry.message.data) ∧
        (∀ e, r = some e →
          resultAt (fun s => p.SendTextMessage s message title) 2 w.providerState = some e ∧
          entry.severity = "error" ∧ e.Error.data <:+: entry.message.data ∧
          title.data <:+: entry.message.data)) ∧
      (∃ r w1 entry, SendEvent order event w = .ok (r, w1) ∧
        w1.audit = w.audit ++ [entry] ∧ entry.actor = "" ∧ entry.target = "" ∧
        (r = none → entry.severity = "info" ∧ event.Event.data <:+: entry.message.data) ∧
        (∀ e, r = some e →
          resultAt (eventAttempt p order cfg event) 2 w.providerState = some e ∧
          entry.severity = "error" ∧ e.Error.data <:+: entry.message.data ∧
          event.Event.data <:+: entry.message.data)) := by
  constructor
  · rw [SendTextMessage_enabled w p cfg message title hp hc hen]
    obtain ⟨r, w1, entry, hrun, haudit, hactor, htarget, hok, hfail⟩ :=
      retry_audit (fun s => p.SendTextMessage s message title) (Call.sendText message title)
        (fun _ => false) ("Message sent: " ++ title)
        (fun e => "Failed to send message after 3 attempts: " ++ e.Error ++ "," ++ title)
        2 none w
    refine ⟨r, w1, entry, hrun, haudit, hactor, htarget, fun h => ?_, fun e h => ?_⟩
    · obtain ⟨hsev, hmsg⟩ := hok h
      exact ⟨hsev, hmsg ▸ infix_append_right _ _⟩
    · obtain ⟨hsev, hmsg, hlast⟩ := hfail e h
      exact ⟨hlast, hsev, hmsg ▸ infix_failure_text _ _ _ _, hmsg ▸ infix_append_right _ _⟩
  · cases hcap : p.SendEvent with
    | none =>
      have hstep : eventAttempt p order cfg event = fun s =>
          p.SendTextMessage s
            (parseTemplate order
              (if cfg.NotificationTemplate = "" then defaultTemplate
                else cfg.NotificationTemplate) event) event.Event := by
        simp only [eventAttempt, hcap]
      rw [SendEvent_enabled_text w p cfg order event hp hc hen hcap, hstep]
      obtain ⟨r, w1, entry, hrun, haudit, hactor, htarget, hok, hfail⟩ :=
        retry_audit
          (fun s => p.SendTextMessage s
            (parseTemplate order
              (if cfg.NotificationTemplate = "" then defaultTemplate
                else cfg.NotificationTemplate) event) event.Event)
          (Call.sendText
            (parseTemplate order
              (if cfg.NotificationTemplate = "" then defaultTemplate
                else cfg.NotificationTemplate) event) event.Event)
          (fun e => e.Error == shortResponse) ("Event message sent: " ++ event.Event)
          (fun e => "Failed to send event message after 3 attempts: " ++ e.Error ++ ","
            ++ event.Event)
          2 none w
      refine ⟨r, w1, entry, hrun, haudit, hactor, htarget, fun h => ?_, fun e h => ?_⟩
      · obtain ⟨hsev, hmsg⟩ := hok h
        exact ⟨hsev, hmsg ▸ infix_append_right _ _⟩
      · obtain ⟨hsev, hmsg, hlast⟩ := hfail e h
        exact ⟨hlast, hsev, hmsg ▸ infix_failure_text _ _ _ _,
          hmsg ▸ infix_append_right _ _⟩
    | some f =>
      have hstep : eventAttempt p order cfg event = fun s => f s event := by
        simp only [eventAttempt, hcap]
      rw [SendEvent_enabled_event w p cfg order event f hp hc hen hcap, hstep]
      obtain ⟨r, w1, entry, hrun, haudit, hactor, htarget, hok, hfail⟩ :=
        retry_audit (fun s => f s event) (Call.sendEvent event)
          (fun e => e.Error == shortResponse) ("Event message sent: " ++ event.Event)
          (fun e => "Failed to send event message after 3 attempts: " ++ e.Error ++ ","
            ++ event.Event)
          2 none w
      refine ⟨r, w1, entry, hrun, haudit, hactor, htarget, fun h => ?_, fun e h => ?_⟩
      · obtain ⟨hsev, hmsg⟩ := hok h
        exact ⟨hsev, hmsg ▸ infix_append_right _ _⟩
      · obtain ⟨hsev, hmsg, hlast⟩ := hfail e h
        exact ⟨hlast, hsev, hmsg ▸ infix_failure_text _ _ _ _,
          hmsg ▸ infix_append_right _ _⟩

/-- Instance of C16, for a backend whose send-text fails on the first two calls
and a backend whose send-event always fails. -/
theorem dispatch_audits_once_witness :
    (∃ r w1 entry, SendTextMessage "disk full" "Alert"
          (stubWorld (some failsTwice) (enabledConfig, none)) = .ok (r, w1) ∧
        w1.audit = [] ++ [entry] ∧ entry.actor = "" ∧ entry.target = "" ∧
        (r = none → entry.severity = "info" ∧ "Alert".data <:+: entry.message.data) ∧
        (∀ e, r = some e →
          resultAt (fun s => failsTwice.SendTextMessage s "disk full" "Alert") 2 0 = some e ∧
          entry.severity = "error" ∧ e.Error.data <:+: entry.message.data ∧
          "Alert".data <:+: entry.message.data)) ∧
      (∃ r w1 entry, SendEvent Placeholder.all sampleEvent
          (stubWorld (some failsTwice) (enabledConfig, none)) = .ok (r, w1) ∧
        w1.audit = [] ++ [entry] ∧ entry.actor = "" ∧ entry.target = "" ∧
        (r = none → entry.severity = "info" ∧
          sampleEvent.Event.data <:+: entry.message.data) ∧
        (∀ e, r = some e →
          resultAt (eventAttempt failsTwice Placeholder.all enabledConfig sampleEvent) 2 0
            = some e ∧
          entry.severity = "error" ∧ e.Error.data <:+: entry.message.data ∧
          sampleEvent.Event.data <:+: entry.message.data)) :=
  dispatch_audits_once (stubWorld (some failsTwice) (enabledConfig, none)) failsTwice
    enabledConfig "disk full" "Alert" Placeholder.all sampleEvent rfl rfl rfl

/-- C17: with a provider installed, an error of `config.Get()` is returned as
it is by `SendTextMessage` and `SendEvent`, which leave the world as it was (no
backend call, no audit entry). And an error either operation returns is the
not-initialized error (empty holder), the error of `config.Get()`, or the error
of the third delivery attempt after three failed attempts. -/
theorem returned_errors (w : World σ) (message title : String) (order : List Placeholder)
    (event : EventMessage) :
    (∀ p cfg e, w.currentProvider = some p → w.configGet = (cfg, some e) →
        SendTextMessage message title w = .ok (some e, w) ∧
        SendEvent order event w = .ok (some e, w)) ∧
      (∀ e w1, SendTextMessage message title w = .ok (some e, w1) →
        (w.currentProvider = none ∧
            e = fmt.Errorf "message sender provider is not initialized") ∨
          w.configGet.2 = some e ∨
          ∃ p, w.currentProvider = some p ∧
            (∀ j, j < 3 →
              resultAt (fun s => p.SendTextMessage s message title) j w.providerState
                ≠ none) ∧
            resultAt (fun s => p.SendTextMessage s message title) 2 w.providerState
              = some e) ∧
      (∀ e w1, SendEvent order event w = .ok (some e, w1) →
        (w.currentProvider = none ∧
            e = fmt.Errorf "message sender provider is not initialized") ∨
          w.configGet.2 = some e ∨
          ∃ p, w.currentProvider = some p ∧
            (∀ j, j < 3 →
              ¬ delivered (resultAt (eventAttempt p order w.configGet.1 event) j
                w.providerState)) ∧
            resultAt (eventAttempt p order w.configGet.1 event) 2 w.providerState
              = some e) := by
  refine ⟨fun p cfg e hp hc => ?_, fun e w1 hrun => ?_, fun e w1 hrun => ?_⟩
  · constructor
    · simp [SendTextMessage, CurrentProvider, hp, hc]
    · simp [SendEvent, CurrentProvider, hp, hc]
  · cases hp : w.currentProvider with
    | none =>
      left
      simp only [SendTextMessage, CurrentProvider, hp] at hrun
      cases hrun
      exact ⟨rfl, rfl⟩
    | some p =>
      right
      rcases hc : w.configGet with ⟨cfg, cerr⟩
      cases cerr with
      | some e0 =>
        left
        simp only [SendTextMessage, CurrentProvider, hp, hc] at hrun
        cases hrun
        rfl
      | none =>
        right
        cases hen : cfg.NotificationEnabled with
        | false =>
          simp [SendTextMessage, CurrentProvider, hp, hc, hen] at hrun
        | true =>
          rw [SendTextMessage_enabled w p cfg message title hp hc hen] at hrun
          rcases retry_outcome (fun s => p.SendTextMessage s message title)
              (Call.sendText message title) (fun _ => false) ("Message sent: " ++ title)
              (fun e => "Failed to send message after 3 attempts: " ++ e.Error ++ ","
                ++ title) 2 none w with ⟨k, _, _, h2⟩ | ⟨hall, e2, he2, h2⟩
          · rw [h2] at hrun
            cases hrun
          · rw [h2] at hrun
            cases hrun
            refine ⟨p, rfl, fun j hj hnone => ?_, he2⟩
            have := hall j hj
            rw [hnone] at this
            simp [accepted] at this
  · cases hp : w.currentProvider with
    | none =>
      left
      simp only [SendEvent, CurrentProvider, hp] at hrun
      cases hrun
      exact ⟨rfl, rfl⟩
    | some p =>
      right
      rcases hc : w.configGet with ⟨cfg, cerr⟩
      cases cerr with
      | some e0 =>
        left
        simp only [SendEvent, CurrentProvider, hp, hc] at hrun
        cases hrun
        rfl
      | none =>
        right
        cases hen : cfg.NotificationEnabled with
        | false =>
          simp [SendEvent, CurrentProvider, hp, hc, hen] at hrun
        | true =>
          refine ⟨p, rfl, ?_⟩
          cases hcap : p.SendEvent with
          | none =>
            have hstep : eventAttempt p order cfg event = fun s =>
                p.SendTextMessage s
                  (parseTemplate order
                    (if cfg.NotificationTemplate = "" then defaultTemplate
                      else cfg.NotificationTemplate) event) event.Event := by
              simp only [eventAttempt, hcap]
            rw [SendEvent_enabled_text w p cfg order event hp hc hen hcap] at hrun
            rw [hstep]
            rcases retry_outcome _
                (Call.sendText
                  (parseTemplate order
                    (if cfg.NotificationTemplate = "" then defaultTemplate
                      else cfg.NotificationTemplate) event) event.Event)
                (fun e => e.Error == shortResponse) ("Event message sent: " ++ event.Event)
                (fun e => "Failed to send event message after 3 attempts: " ++ e.Error
                  ++ "," ++ event.Event) 2 none w with ⟨k, _, _, h2⟩ | ⟨hall, e2, he2, h2⟩
            · rw [h2] at hrun
              cases hrun
            · rw [h2] at hrun
              cases hrun
              refine ⟨fun j hj hdel => ?_, he2⟩
              have := hall j hj
              rw [(accepted_iff_delivered _).2 hdel] at this
              exact Bool.noConfusion this
          | some f =>
            have hstep : eventAttempt p order cfg event = fun s => f s event := by
              simp only [eventAttempt, hcap]
            rw [SendEvent_enabled_event w p cfg order event f hp hc hen hcap] at hrun
            rw [hstep]
            rcases retry_outcome _ (Call.sendEvent event)
                (fun e => e.Error == shortResponse) ("Event message sent: " ++ event.Event)
                (fun e => "Failed to send event message after 3 attempts: " ++ e.Error
                  ++ "," ++ event.Event) 2 none w with ⟨k, _, _, h2⟩ | ⟨hall, e2, he2, h2⟩
            · rw [h2] at hrun
              cases hrun
            · rw [h2] at hrun
              cases hrun
              refine ⟨fun j hj hdel => ?_, he2⟩
              have := hall j hj
              rw [(accepted_iff_delivered _).2 hdel] at this
              exact Bool.noConfusion this

/-- Instance of C17: the configuration read fails with a database error while a
backend is installed. -/
theorem returned_errors_witness :
    SendTextMessage "disk full" "Alert"
        (stubWorld (some alwaysFailing) (enabledConfig, some ⟨"database is locked", 5⟩))
        = .ok (some ⟨"database is locked", 5⟩,
            stubWorld (some alwaysFailing) (enabledConfig, some ⟨"database is locked", 5⟩)) ∧
      SendEvent Placeholder.all sampleEvent
        (stubWorld (some alwaysFailing) (enabledConfig, some ⟨"database is locked", 5⟩))
        = .ok (some ⟨"database is locked", 5⟩,
            stubWorld (some alwaysFailing) (enabledConfig, some ⟨"database is locked", 5⟩)) :=
  (returned_errors
    (stubWorld (some alwaysFailing) (enabledConfig, some ⟨"database is locked", 5⟩))
    "disk full" "Alert" Placeholder.all sampleEvent).1 alwaysFailing enabledConfig
    ⟨"database is locked", 5⟩ rfl rfl

/-! ### Provider selection -/

theorem Initialize_none (w : InitWorld)
    (h : w.configGet.1.NotificationMethod = "" ∨ w.configGet.1.NotificationMethod = "none") :
    Initialize w = LoadProvider "empty" "{}" w := by
  unfold Initialize
  rcases h with h | h <;> simp [h]

theorem Initialize_lookup (w : InitWorld) (h1 : w.configGet.1.NotificationMethod ≠ "")
    (h2 : w.configGet.1.NotificationMethod ≠ "none") :
    Initialize w =
      match GetMessageSenderConfigByName w.db w.configGet.1.NotificationMethod with
      | .error _ => LoadProvider "empty" "{}" w
      | .ok senderConfig =>
        LoadProvider w.configGet.1.NotificationMethod senderConfig.Addition w := by
  unfold Initialize
  simp [h1, h2]

/-- C12: `Initialize` makes exactly one `LoadProvider` call, and leaves the
configuration and the storage as they are. The call is `("empty", "{}")` when
the configured method is empty or `none`, and also when the lookup of the row of
the method fails; when the lookup succeeds it is the method name with the
`Addition` of the row found. -/
theorem Initialize_selects (w : InitWorld) :
    (Initialize w).configGet = w.configGet ∧ (Initialize w).db = w.db ∧
      (w.configGet.1.NotificationMethod = "" ∨ w.configGet.1.NotificationMethod = "none" →
        (Initialize w).loaded = w.loaded ++ [("empty", "{}")]) ∧
      (w.configGet.1.NotificationMethod ≠ "" → w.configGet.1.NotificationMethod ≠ "none" →
        (∀ e, GetMessageSenderConfigByName w.db w.configGet.1.NotificationMethod = .error e →
          (Initialize w).loaded = w.loaded ++ [("empty", "{}")]) ∧
        (∀ row, GetMessageSenderConfigByName w.db w.configGet.1.NotificationMethod = .ok row →
          (Initialize w).loaded
            = w.loaded ++ [(w.configGet.1.NotificationMethod, row.Addition)])) := by
  have hframe : (Initialize w).configGet = w.configGet ∧ (Initialize w).db = w.db := by
    unfold Initialize
    simp only []
    split
    · exact ⟨rfl, rfl⟩
    · split <;> exact ⟨rfl, rfl⟩
  refine ⟨hframe.1, hframe.2, fun h => ?_, fun h1 h2 => ⟨fun e he => ?_, fun row hrow => ?_⟩⟩
  · rw [Initialize_none w h]; rfl
  · rw [Initialize_lookup w h1 h2, he]; rfl
  · rw [Initialize_lookup w h1 h2, hrow]; rfl

/-- Instance of C12: the selected provider has a persisted row. -/
theorem Initialize_selects_witness :
    (Initialize disabledTelegram).loaded = [] ++ [("telegram", "token-and-chat")] :=
  ((Initialize_selects disabledTelegram).2.2.2 (by decide) (by decide)).2
    ⟨"telegram", "token-and-chat"⟩ rfl

/-- C13 fails on the code: with notifications disabled, `telegram` selected and a
row persisted for it, `Initialize` does not load the no-op provider; it loads
`telegram` with the persisted configuration. -/
theorem Initialize_disabled_counterexample :
    disabledTelegram.configGet.1.NotificationEnabled = false ∧
      (Initialize disabledTelegram).loaded ≠ disabledTelegram.loaded ++ [("empty", "{}")] ∧
      (Initialize disabledTelegram).loaded = [("telegram", "token-and-chat")] := by
  refine ⟨rfl, by decide, by decide⟩

/-- C13 as amended: with notifications disabled `Initialize` selects as it
always does; the flag is not consulted. It loads the no-op provider when the
method is empty or `none` or the lookup of its row fails, and the named provider
with the persisted configuration when the lookup succeeds. -/
theorem Initialize_disabled (w : InitWorld)
    (_hdis : w.configGet.1.NotificationEnabled = false) :
    (w.configGet.1.NotificationMethod = "" ∨ w.configGet.1.NotificationMethod = "none" →
        (Initialize w).loaded = w.loaded ++ [("empty", "{}")]) ∧
      (w.configGet.1.NotificationMethod ≠ "" → w.configGet.1.NotificationMethod ≠ "none" →
        (∀ e, GetMessageSenderConfigByName w.db w.configGet.1.NotificationMethod = .error e →
          (Initialize w).loaded = w.loaded ++ [("empty", "{}")]) ∧
        (∀ row, GetMessageSenderConfigByName w.db w.configGet.1.NotificationMethod = .ok row →
          (Initialize w).loaded
            = w.loaded ++ [(w.configGet.1.NotificationMethod, row.Addition)])) := by
  refine ⟨fun h => ?_, fun h1 h2 => ⟨fun e he => ?_, fun row hrow => ?_⟩⟩
  · rw [Initialize_none w h]; rfl
  · rw [Initialize_lookup w h1 h2, he]; rfl
  · rw [Initialize_lookup w h1 h2, hrow]; rfl

/-- Instance of C13 as amended: notifications disabled, the selected provider
has a persisted row and is loaded with it. -/
theorem Initialize_disabled_witness :
    (Initialize disabledTelegram).loaded = [] ++ [("telegram", "token-and-chat")] :=
  ((Initialize_disabled disabledTelegram rfl).2 (by decide) (by decide)).2
    ⟨"telegram", "token-and-chat"⟩ rfl

/-! ### Bootstrap -/

/-- C14 fails on the code: a provider whose default configuration does not
serialize, or whose row the storage refuses, ends the whole run; the provider
after it gets no row, although on its own it would get one. -/
theorem bootstrap_stops_at_failure :
    (bootstrap [brokenSender, emailSender] (storageOf [])).rows = [] ∧
      (bootstrap [telegramSender, emailSender] (storageRefusing "telegram" [])).rows = [] ∧
      (bootstrap [emailSender] (storageOf [])).rows = [⟨"email", "email-defaults"⟩] ∧
      (bootstrap [emailSender] (storageRefusing "telegram" [])).rows
        = [⟨"email", "email-defaults"⟩] := by
  refine ⟨by decide, by decide, by decide, by decide⟩

theorem lookup_of_mem (db : Database) (name : String)
    (h : name ∈ db.rows.map (fun r => r.Name)) :
    ∃ r, GetMessageSenderConfigByName db name = .ok r := by
  unfold GetMessageSenderConfigByName
  cases hfind : db.rows.find? (fun r => r.Name == name) with
  | some r => exact ⟨r, rfl⟩
  | none =>
    exfalso
    obtain ⟨r, hr, hname⟩ := List.mem_map.1 h
    have := List.find?_eq_none.1 hfind r hr
    simp [hname] at this

theorem lookup_of_not_mem (db : Database) (name : String)
    (h : name ∉ db.rows.map (fun r => r.Name)) :
    GetMessageSenderConfigByName db name = .error ⟨"record not found", 0⟩ := by
  unfold GetMessageSenderConfigByName
  cases hfind : db.rows.find? (fun r => r.Name == name) with
  | none => rfl
  | some r =>
    exfalso
    apply h
    have hmem := List.mem_of_find?_eq_some hfind
    have hname := List.find?_some hfind
    exact List.mem_map.2 ⟨r, hmem, by simpa using hname⟩

theorem save_new_name (db : Database) (row : MessageSenderProvider)
    (hs : db.saveError row = none) (h : row.Name ∉ db.rows.map (fun r => r.Name)) :
    SaveMessageSenderConfig row db
      = (none, { db with rows := db.rows ++ [row], saveCalls := db.saveCalls ++ [row] }) := by
  unfold SaveMessageSenderConfig
  have hany : db.rows.any (fun r => r.Name == row.Name) = false := by
    rw [List.any_eq_false]
    intro r hr hname
    exact h (List.mem_map.2 ⟨r, hr, by simpa using hname⟩)
  simp only [hs, hany, Bool.false_eq_true, if_false]

theorem bootstrap_eq_defaultRows :
    ∀ (all : List KnownSender) (db : Database),
      (∀ p ∈ all, p.GetName ∉ db.rows.map (fun r => r.Name) → p.marshal.2 = none) →
      (∀ p ∈ all, p.GetName ∉ db.rows.map (fun r => r.Name) →
        db.saveError ⟨p.GetName, p.marshal.1⟩ = none) →
      bootstrap all db =
        { db with
          rows := db.rows ++ defaultRows all (db.rows.map (fun r => r.Name))
          saveCalls := db.saveCalls ++ defaultRows all (db.rows.map (fun r => r.Name)) } := by
  intro all
  induction all with
  | nil => intro db _ _; simp [bootstrap, defaultRows]
  | cons p rest ih =>
    intro db hm hs
    by_cases hmem : p.GetName ∈ db.rows.map (fun r => r.Name)
    · obtain ⟨r, hr⟩ := lookup_of_mem db p.GetName hmem
      simp only [bootstrap, hr, defaultRows, if_pos hmem]
      exact ih db (fun q hq => hm q (List.mem_cons_of_mem _ hq))
        (fun q hq => hs q (List.mem_cons_of_mem _ hq))
    · have hr := lookup_of_not_mem db p.GetName hmem
      have hp : p.marshal = (p.marshal.1, none) :=
        Prod.ext rfl (hm p (List.mem_cons_self _ _) hmem)
      have hsave := save_new_name db ⟨p.GetName, p.marshal.1⟩
        (hs p (List.mem_cons_self _ _) hmem) hmem
      simp only [bootstrap, hr, defaultRows, if_neg hmem]
      rw [hp]
      simp only [hsave]
      exact (ih (Database.mk (db.rows ++ [MessageSenderProvider.mk p.GetName p.marshal.1])
        db.saveError (db.saveCalls ++ [MessageSenderProvider.mk p.GetName p.marshal.1]))
        (fun q hq hnot => hm q (List.mem_cons_of_mem _ hq)
          (fun hin => hnot (by simp only [List.map_append, List.mem_append]; exact Or.inl hin)))
        (fun q hq hnot => hs q (List.mem_cons_of_mem _ hq)
          (fun hin => hnot (by simp only [List.map_append, List.mem_append]; exact Or.inl hin)))
        ).trans (by simp [List.append_assoc])

theorem defaultRows_origin :
    ∀ (all : List KnownSender) (present : List String) (row : MessageSenderProvider),
      row ∈ defaultRows all present →
      row.Name ∉ present ∧
        ∃ pre p post, all = pre ++ p :: post ∧ p.GetName ∉ pre.map (fun q => q.GetName) ∧
          row = ⟨p.GetName, p.marshal.1⟩ := by
  intro all
  induction all with
  | nil => intro present row h; simp [defaultRows] at h
  | cons p rest ih =>
    intro present row h
    by_cases hmem : p.GetName ∈ present
    · rw [defaultRows, if_pos hmem] at h
      obtain ⟨hnot, pre, q, post, hall, hfirst, hrow⟩ := ih present row h
      refine ⟨hnot, p :: pre, q, post, by simp [hall], ?_, hrow⟩
      have hne : q.GetName ≠ p.GetName := by
        intro heq
        apply hnot
        rw [hrow]
        simpa [heq] using hmem
      simpa [hne] using hfirst
    · rw [defaultRows, if_neg hmem] at h
      rcases List.mem_cons.1 h with hrow | htail
      · exact ⟨by rw [hrow]; exact hmem, [], p, rest, rfl, by simp, hrow⟩
      · obtain ⟨hnot, pre, q, post, hall, hfirst, hrow⟩ := ih _ row htail
        have hnot1 : row.Name ∉ present := fun hin => hnot (List.mem_append_left _ hin)
        have hne : q.GetName ≠ p.GetName := by
          intro heq
          apply hnot
          rw [hrow]
          simp [heq]
        exact ⟨hnot1, p :: pre, q, post, by simp [hall], by simpa [hne] using hfirst, hrow⟩

theorem defaultRows_nodup :
    ∀ (all : List KnownSender) (present : List String),
      ((defaultRows all present).map (fun r => r.Name)).Nodup := by
  intro all
  induction all with
  | nil => intro present; simp [defaultRows]
  | cons p rest ih =>
    intro present
    by_cases hmem : p.GetName ∈ present
    · rw [defaultRows, if_pos hmem]
      exact ih present
    · rw [defaultRows, if_neg hmem, List.map_cons, List.nodup_cons]
      refine ⟨fun hin => ?_, ih _⟩
      obtain ⟨row, hrow, hname⟩ := List.mem_map.1 hin
      have := (defaultRows_origin rest _ row hrow).1
      apply this
      simp [hname]

theorem defaultRows_covers :
    ∀ (all : List KnownSender) (present : List String) (p : KnownSender), p ∈ all →
      p.GetName ∉ present → p.GetName ∈ (defaultRows all present).map (fun r => r.Name) := by
  intro all
  induction all with
  | nil => intro present p h; simp at h
  | cons q rest ih =>
    intro present p hp hnot
    by_cases hmem : q.GetName ∈ present
    · rw [defaultRows, if_pos hmem]
      rcases List.mem_cons.1 hp with rfl | hrest
      · exact absurd hmem hnot
      · exact ih present p hrest hnot
    · rw [defaultRows, if_neg hmem, List.map_cons]
      by_cases hname : p.GetName = q.GetName
      · simp [hname]
      · rcases List.mem_cons.1 hp with rfl | hrest
        · exact absurd rfl hname
        · exact List.mem_cons_of_mem _
            (ih _ p hrest (by simp [hnot, hname]))

theorem defaultRows_nil :
    ∀ (all : List KnownSender) (present : List String),
      (∀ p ∈ all, p.GetName ∈ present) → defaultRows all present = [] := by
  intro all
  induction all with
  | nil => intro present _; rfl
  | cons p rest ih =>
    intro present h
    rw [defaultRows, if_pos (h p (List.mem_cons_self _ _))]
    exact ih present (fun q hq => h q (List.mem_cons_of_mem _ hq))

/-- C15: a bootstrap run in which no serialization and no write fails (those
of the known providers that have no row) keeps every row it finds, in place,
and adds rows only through one `SaveMessageSenderConfig` call each. A row is
added for a name exactly when the
name is the name of a known provider and had no row; the added rows have
pairwise different names, and each holds the name and the serialized default
configuration of the first known provider of that name. Running the loop again
on the result changes nothing, and a storage with at most one row per name
stays so. -/
theorem bootstrap_without_failures (all : List KnownSender) (db : Database)
    (hm : ∀ p ∈ all, p.GetName ∉ db.rows.map (fun r => r.Name) → p.marshal.2 = none)
    (hs : ∀ p ∈ all, p.GetName ∉ db.rows.map (fun r => r.Name) →
      db.saveError ⟨p.GetName, p.marshal.1⟩ = none) :
    ∃ added : List MessageSenderProvider,
      (bootstrap all db).rows = db.rows ++ added ∧
      (bootstrap all db).saveCalls = db.saveCalls ++ added ∧
      (∀ name, name ∈ added.map (fun r => r.Name) ↔
        name ∈ all.map (fun p => p.GetName) ∧ name ∉ db.rows.map (fun r => r.Name)) ∧
      (added.map (fun r => r.Name)).Nodup ∧
      (∀ row ∈ added, ∃ pre p post, all = pre ++ p :: post ∧
        p.GetName ∉ pre.map (fun q => q.GetName) ∧ row = ⟨p.GetName, p.marshal.1⟩) ∧
      bootstrap all (bootstrap all db) = bootstrap all db ∧
      ((db.rows.map (fun r => r.Name)).Nodup →
        ((bootstrap all db).rows.map (fun r => r.Name)).Nodup) := by
  have hrun := bootstrap_eq_defaultRows all db hm hs
  refine ⟨defaultRows all (db.rows.map (fun r => r.Name)), by rw [hrun], by rw [hrun],
    fun name => ⟨fun h => ?_, fun h => ?_⟩, defaultRows_nodup all _,
    fun row hrow => (defaultRows_origin all _ row hrow).2, ?_, fun hnodup => ?_⟩
  · obtain ⟨row, hrow, hname⟩ := List.mem_map.1 h
    obtain ⟨hnot, pre, p, post, hall, _, hrow2⟩ := defaultRows_origin all _ row hrow
    refine ⟨List.mem_map.2 ⟨p, by simp [hall], ?_⟩, hname ▸ hnot⟩
    rw [← hname, hrow2]
  · obtain ⟨p, hp, hname⟩ := List.mem_map.1 h.1
    have := defaultRows_covers all (db.rows.map (fun r => r.Name)) p hp (by rw [hname]; exact h.2)
    rwa [hname] at this
  · have hall : ∀ p ∈ all, p.GetName ∈ (bootstrap all db).rows.map (fun r => r.Name) := by
      intro p hp
      rw [hrun]
      simp only [List.map_append, List.mem_append]
      by_cases hmem : p.GetName ∈ db.rows.map (fun r => r.Name)
      · exact Or.inl hmem
      · exact Or.inr (defaultRows_covers all _ p hp hmem)
    have hnil : defaultRows all ((bootstrap all db).rows.map (fun r => r.Name)) = [] := by
      exact defaultRows_nil all _ hall
    rw [bootstrap_eq_defaultRows all (bootstrap all db)
      (fun p hp hnot => absurd (hall p hp) hnot) (fun p hp hnot => absurd (hall p hp) hnot),
      hnil]
    simp
  · rw [hrun]
    simp only [List.map_append]
    refine List.Nodup.append hnodup (defaultRows_nodup all _) ?_
    intro name hin hnew
    obtain ⟨row, hrow, hname⟩ := List.mem_map.1 hnew
    exact (defaultRows_origin all _ row hrow).1 (hname ▸ hin)

/-- Instance of C15: `telegram` has a row and keeps it, `email` gets its
default row, and a second run changes nothing. -/
theorem bootstrap_without_failures_witness :
    ∃ added : List MessageSenderProvider,
      (bootstrap [telegramSender, emailSender]
          (storageOf [⟨"telegram", "token-and-chat"⟩])).rows
        = [⟨"telegram", "token-and-chat"⟩] ++ added ∧
      (bootstrap [telegramSender, emailSender]
          (storageOf [⟨"telegram", "token-and-chat"⟩])).saveCalls = [] ++ added ∧
      (∀ name, name ∈ added.map (fun r => r.Name) ↔
        name ∈ [telegramSender, emailSender].map (fun p => p.GetName) ∧
          name ∉ [MessageSenderProvider.mk "telegram" "token-and-chat"].map (fun r => r.Name)) ∧
      (added.map (fun r => r.Name)).Nodup ∧
      (∀ row ∈ added, ∃ pre p post, [telegramSender, emailSender] = pre ++ p :: post ∧
        p.GetName ∉ pre.map (fun q => q.GetName) ∧ row = ⟨p.GetName, p.marshal.1⟩) ∧
      bootstrap [telegramSender, emailSender]
          (bootstrap [telegramSender, emailSender]
            (storageOf [⟨"telegram", "token-and-chat"⟩]))
        = bootstrap [telegramSender, emailSender]
            (storageOf [⟨"telegram", "token-and-chat"⟩]) ∧
      (([MessageSenderProvider.mk "telegram" "token-and-chat"].map (fun r => r.Name)).Nodup →
        ((bootstrap [telegramSender, emailSender]
          (storageOf [⟨"telegram", "token-and-chat"⟩])).rows.map (fun r => r.Name)).Nodup) :=
  bootstrap_without_failures [telegramSender, emailSender]
    (storageOf [⟨"telegram", "token-and-chat"⟩])
    (by decide) (fun _ _ _ => rfl)

/-! ### `item.Parse` -/

theorem parseField_eq (field : StructField) : parseField field = expectedItem field := by
  have hreq : (field.TagGet "required" == "true")
      = decide (field.TagGet "required" = "true") := by
    by_cases h : field.TagGet "required" = "true" <;> simp [h]
  unfold parseField expectedItem
  by_cases h1 : field.TagGet "type" = "option"
  · simp [contains, h1, hreq]
  · by_cases h2 : field.TagGet "type" = "richtext"
    · simp [contains, h2, hreq]
    · have hc : contains ["option", "richtext"] (field.TagGet "type") = false := by
        simp [contains, Ne.symm h1, Ne.symm h2]
      by_cases h3 : field.TypeName = ""
      · simp [hc, h1, h2, h3, hreq]
      · simp [hc, h1, h2, h3, hreq]

theorem expectedItem_type_ne (field : StructField) : (expectedItem field).Type_ ≠ "" := by
  unfold expectedItem
  simp only
  split
  · rename_i h
    rcases h with h | h <;> rw [h] <;> decide
  · split
    · decide
    · assumption

/-- C18: for a struct, or a pointer to a struct, with fields `fields`,
`Parse` returns one item per field, in declaration order; the item of a field
has the field's `json`, `options`, `default` and `help` tag values, is required
exactly when the `required` tag is `true`, and has as type the `type` tag when
that is `option` or `richtext`, else the name of the Go type, else `string`; no
item has an empty type. -/
theorem Parse_struct (v : Value) (fields : List StructField)
    (hv : v = Value.struct fields ∨ v = Value.ptr (Value.struct fields)) :
    ∃ items, Parse v = some items ∧ items = fields.map expectedItem ∧
      items.length = fields.length ∧ ∀ item ∈ items, item.Type_ ≠ "" := by
  have hloop : fields.foldl (fun items field => items ++ [parseField field]) []
      = fields.map expectedItem := by
    rw [foldl_append_singleton parseField, List.nil_append]
    exact List.map_congr_left (fun field _ => parseField_eq field)
  have hparse : Parse v = some (fields.map expectedItem) := by
    rcases hv with rfl | rfl <;> simp only [Parse, hloop]
  refine ⟨_, hparse, rfl, List.length_map _ _, fun item hitem => ?_⟩
  obtain ⟨field, _, rfl⟩ := List.mem_map.1 hitem
  exact expectedItem_type_ne field

/-- Instance of C18: a pointer to a struct with three fields. -/
theorem Parse_struct_witness :
    ∃ items, Parse (Value.ptr (Value.struct sampleFields)) = some items ∧
      items = sampleFields.map expectedItem ∧
      items.length = sampleFields.length ∧ ∀ item ∈ items, item.Type_ ≠ "" :=
  Parse_struct (Value.ptr (Value.struct sampleFields)) sampleFields (Or.inr rfl)

/-- A nil pointer, and a pointer to a pointer, make `val.NumField()` panic. -/
theorem Parse_not_struct (fields : List StructField) :
    Parse Value.nilPtr = none ∧ Parse (Value.ptr (Value.ptr (Value.struct fields))) = none ∧
      Parse Value.other = none :=
  ⟨rfl, rfl, rfl⟩

end Komari
